import Mathlib

/-!
protoc-gen-gin: the route and interface generator

A shallow embedding of `generator/generator.go`.  The generator walks the
services and methods of a protobuf file descriptor and prints Go source
through `P`, one call per output line.

Conventions of the embedding

* The output buffer `t.Output` is the list of the lines printed so far, one
  entry per call of `P` (`P` writes its arguments one after the other and
  ends the line).  `bufferText` turns it back into the text of the buffer.
* Everything the generator imports from other modules (the kratos
  `generator.Base`, `naming`, `tag`, `utils`, the type registry, the Go
  formatter) is a field of `Env`: the code of this package is modelled, its
  collaborators are parameters.
* The Go formatter behind `t.FormattedOutput` ends the process when the
  buffer is not Go source it can parse: it is a partial function, and
  `generateForFile` returns no record when it gives none.
* The order in which a `range` statement visits a Go map is not fixed.  The
  dependency map is given as the list of its entries in the order one run
  visits them, and `Env.visiting` describes a run with another order.
* Go standard-library string functions used by the package (`strings.Split`,
  `strings.TrimPrefix`, `strings.Replace`, `strings.HasPrefix`,
  `sort.Strings`) are written out on character lists.
-/

namespace GinGen

/-! ## Descriptors -/

/-- The fields of `descriptor.MethodDescriptorProto` read by the generator. -/
structure MethodDescriptorProto where
  Name : String
  InputType : String
  OutputType : String
  deriving DecidableEq, Repr

/-- The fields of `descriptor.ServiceDescriptorProto` read by the generator. -/
structure ServiceDescriptorProto where
  Name : String
  Method : List MethodDescriptorProto
  deriving DecidableEq, Repr

/-- The fields of `descriptor.FileDescriptorProto` read by the generator. -/
structure FileDescriptorProto where
  Name : String
  Service : List ServiceDescriptorProto
  deriving DecidableEq, Repr

/-- A message field, `descriptor.FieldDescriptorProto`; only handed on to
`tag.GetMoreTags`. -/
structure FieldDescriptorProto where
  Name : String
  deriving DecidableEq, Repr

/-- The part of `descriptor.DescriptorProto` read by `hasHeaderTag`.  A nil
slice and an empty slice are both the empty list. -/
structure DescriptorProto where
  Field : List FieldDescriptorProto
  deriving DecidableEq, Repr

/-- The record `typemap.MessageDefinition`. -/
structure MessageDefinition where
  Descriptor : DescriptorProto
  deriving DecidableEq, Repr

/-- The record `typemap.DefinitionComments`. -/
structure DefinitionComments where
  Leading : String
  deriving DecidableEq, Repr

/-- The fields of `generator.HTTPInfo` read by the generator. -/
structure HTTPInfo where
  HttpMethod : String
  Path : String
  NewPath : String
  deriving DecidableEq, Repr

/-- The record `plugin.CodeGeneratorResponse_File`. -/
structure CodeGeneratorResponse_File where
  Name : String
  Content : String
  deriving DecidableEq, Repr

/-! ## Collaborators -/

/-- The functions the package calls in other modules.  The registry and the
caches behind them are filled by `t.Setup` and do not change what a call
returns during generation, so each is a function of its arguments.  A
comment lookup returns the comments together with `true` when its error
result is nil. -/
structure Env where
  /-- The constant `generator.Version`. -/
  Version : String
  ShouldGenForMethod :
    FileDescriptorProto → ServiceDescriptorProto → MethodDescriptorProto → Bool
  GetHttpInfoCached :
    FileDescriptorProto → ServiceDescriptorProto → MethodDescriptorProto → HTTPInfo
  /-- The lookup `t.Reg.FileComments`. -/
  FileComments : FileDescriptorProto → DefinitionComments × Bool
  /-- The lookup `t.Reg.ServiceComments`. -/
  ServiceComments :
    FileDescriptorProto → ServiceDescriptorProto → DefinitionComments × Bool
  /-- The lookup `t.Reg.MethodComments`. -/
  MethodComments :
    FileDescriptorProto → ServiceDescriptorProto → MethodDescriptorProto →
      DefinitionComments × Bool
  /-- The lookup `t.Reg.MessageDefinition`, by proto type name; the registry
  holds the input type of every method it is asked for. -/
  MessageDefinition : String → MessageDefinition
  GoTypeName : String → String
  /-- The Go map returned by `t.DeduceDeps`, as its entries (package name,
  quoted import path) in the order in which the `range` statement of
  `generateImports` visits them in the run this environment describes.  Go
  leaves that order open and may take another one in every run: a run that
  visits the map in another order is described by `Env.visiting`. -/
  DeduceDeps : FileDescriptorProto → List (String × String)
  /-- The lines `t.PrintComments` prints. -/
  PrintComments : DefinitionComments → List String
  /-- The text `t.FormattedOutput` returns for a buffer text, or `none` when
  the Go formatter rejects the text: it then reports the bad source and
  ends the process, and no response is written. -/
  FormattedOutput : String → Option String
  /-- The function `naming.ServiceName`. -/
  ServiceName : ServiceDescriptorProto → String
  /-- The function `naming.MethodName`. -/
  MethodName : MethodDescriptorProto → String
  /-- The function `naming.GoFileName`. -/
  GoFileName : FileDescriptorProto → String → String
  /-- The function `naming.GetVersionPrefix`. -/
  GetVersionPrefix : String → String
  /-- The function `utils.LcFirst`. -/
  LcFirst : String → String
  /-- The function `utils.CamelCase`. -/
  CamelCase : String → String
  /-- The function `tag.GetTagsInComment`; a tag is a `reflect.StructTag`. -/
  GetTagsInComment : String → List String
  /-- The function `tag.GetTagValue`. -/
  GetTagValue : String → List String → String
  /-- The function `tag.GetMoreTags`; `none` is the nil pointer. -/
  GetMoreTags : FieldDescriptorProto → Option String
  /-- The method `reflect.StructTag.Get`: tag first, key second. -/
  StructTagGet : String → String → String

/-! ## Go string functions -/

/-- Scan for `strings.Split` with a one-character separator. -/
def splitAux (sep : Char) : List Char → List Char → List (List Char)
  | [], cur => [cur.reverse]
  | c :: cs, cur =>
    if c = sep then cur.reverse :: splitAux sep cs [] else splitAux sep cs (c :: cur)

/-- The call `strings.Split(s, sep)` for a one-character separator. -/
def stringsSplit (s : String) (sep : Char) : List String :=
  (splitAux sep s.data []).map String.mk

/-- The call `strings.TrimPrefix(line, " ")`. -/
def trimPrefixSpace (line : String) : String :=
  match line.data with
  | ' ' :: rest => String.mk rest
  | _ => line

/-- Replace every star-slash by star-space-slash, left to right. -/
def replaceCommentEndAux : List Char → List Char
  | '*' :: '/' :: rest => '*' :: ' ' :: '/' :: replaceCommentEndAux rest
  | c :: rest => c :: replaceCommentEndAux rest
  | [] => []

/-- The call `strings.Replace(line, "*/", "* /", -1)`. -/
def replaceCommentEnd (line : String) : String :=
  String.mk (replaceCommentEndAux line.data)

/-- The call `strings.HasPrefix(s, pre)`. -/
def stringsHasPrefix (s pre : String) : Bool :=
  pre.data.isPrefixOf s.data

/-- The order `a <= b` of Go strings: lexicographic on the bytes, which for
UTF-8 text is lexicographic on the code points. -/
def stringsLe : List Char → List Char → Bool
  | [], _ => true
  | _ :: _, [] => false
  | a :: as, b :: bs =>
    if a.toNat < b.toNat then true
    else if b.toNat < a.toNat then false
    else stringsLe as bs

/-- The call `sort.Strings`: ascending order. -/
def sortStrings (l : List String) : List String :=
  l.insertionSort (fun a b => stringsLe a.data b.data = true)

/-! ## The generator -/

/-- The generator value: `generator.Base` (the fields the package reads)
and the counter of files handled. -/
structure ginGenerator where
  GenPkgName : String
  GenFiles : List FileDescriptorProto
  Output : List String
  filesHandled : Nat
  deriving DecidableEq, Repr

/-- The constructor `GinGenerator`: a zero-valued generator. -/
def GinGenerator : ginGenerator :=
  { GenPkgName := "", GenFiles := [], Output := [], filesHandled := 0 }

/-- The method `t.P`: print the arguments and end the line. -/
def ginGenerator.P (t : ginGenerator) (args : List String) : ginGenerator :=
  { t with Output := t.Output ++ [String.join args] }

/-- The text held by a buffer: every line followed by a newline. -/
def bufferText (lines : List String) : String :=
  String.join (lines.map (fun l => l ++ "\n"))

/-- The method `t.PrintComments`: the collaborator decides the lines. -/
def ginGenerator.PrintComments (env : Env) (t : ginGenerator)
    (comments : DefinitionComments) : ginGenerator :=
  (env.PrintComments comments).foldl (fun t line => t.P [line]) t

/-- Body of the loop over the lines of the leading file comment. -/
def fileHeaderCommentLine (t : ginGenerator) (line : String) : ginGenerator :=
  let line := trimPrefixSpace line
  -- ensure we don't escape from the block comment
  let line := replaceCommentEnd line
  t.P [line]

/-- Body of the loop over the files to generate, in the doc block. -/
def fileHeaderGenFile (t : ginGenerator) (f : FileDescriptorProto) : ginGenerator :=
  t.P ["\t", f.Name]

/-- The method `generateFileHeader`. -/
def ginGenerator.generateFileHeader (env : Env) (t : ginGenerator)
    (file : FileDescriptorProto) (pkgName : String) : ginGenerator :=
  let t := t.P ["// Code generated by protoc-gen-gin ", env.Version, ", DO NOT EDIT."]
  let t := t.P ["// source: ", file.Name]
  let t := t.P []
  let t :=
    if t.filesHandled = 0 then
      -- doc for the first file
      let t := t.P ["/*"]
      let t := t.P ["Package ", t.GenPkgName, " is a generated blademaster stub package."]
      let t := t.P ["This code was generated with dangerous1990/protoc-gen-ginGenerator ",
        env.Version, "."]
      let t := t.P []
      let comment := (env.FileComments file).1
      let errIsNil := (env.FileComments file).2
      let t :=
        if errIsNil = true ∧ comment.Leading ≠ "" then
          let t := (stringsSplit comment.Leading '\n').foldl fileHeaderCommentLine t
          t.P []
        else t
      let t := t.P ["It is generated from these files:"]
      let t := t.GenFiles.foldl fileHeaderGenFile t
      t.P ["*/"]
    else t
  let t := t.P ["package ", pkgName]
  t.P []

/-- Body of the innermost loop of `generateImports`, for one entry of the
dependency map and one method. -/
def importsMethod (env : Env) (pkg importPath : String) (t : ginGenerator)
    (method : MethodDescriptorProto) : ginGenerator :=
  let inputType := env.GoTypeName method.InputType
  let outputType := env.GoTypeName method.OutputType
  if stringsHasPrefix pkg outputType = true ∨ stringsHasPrefix pkg inputType = true then
    t.P ["import ", pkg, " ", importPath]
  else t

/-- Body of the loop of `generateImports` over the dependency map. -/
def importsDep (env : Env) (file : FileDescriptorProto) (t : ginGenerator)
    (dep : String × String) : ginGenerator :=
  file.Service.foldl
    (fun t service => service.Method.foldl (importsMethod env dep.1 dep.2) t) t

/-- The method `generateImports`. -/
def ginGenerator.generateImports (env : Env) (t : ginGenerator)
    (file : FileDescriptorProto) : ginGenerator :=
  let t := t.P ["import ("]
  let t := t.P ["\t\"context\""]
  let t := t.P []
  let t := t.P ["\t\"github.com/gin-gonic/gin\""]
  let t := t.P ["\t\"github.com/gin-gonic/gin/binding\""]
  let t := t.P [")"]
  -- It's legal to import a message and use it as an input or output for a
  -- method. Make sure to import the package of any such message.
  let deps := env.DeduceDeps file
  let t := deps.foldl (importsDep env file) t
  let t := if deps.length > 0 then t.P [] else t
  let t := t.P []
  let t := t.P ["// to suppressed 'imported but not used warning'"]
  let t := t.P ["var _ *gin.Context"]
  let t := t.P ["var _ context.Context"]
  t.P ["var _ binding.StructValidator"]

/-- Body of the method loop of `generatePathConstants`. -/
def pathConstantsMethod (env : Env) (file : FileDescriptorProto)
    (service : ServiceDescriptorProto) (name : String) (t : ginGenerator)
    (method : MethodDescriptorProto) : ginGenerator :=
  if env.ShouldGenForMethod file service method = false then
    t
  else
    let apiInfo := env.GetHttpInfoCached file service method
    t.P ["var Path", name, env.MethodName method, " = \"", apiInfo.Path, "\""]

/-- Body of the service loop of `generatePathConstants`. -/
def pathConstantsService (env : Env) (file : FileDescriptorProto) (t : ginGenerator)
    (service : ServiceDescriptorProto) : ginGenerator :=
  let name := env.ServiceName service
  let t := service.Method.foldl (pathConstantsMethod env file service name) t
  t.P []

/-- The method `generatePathConstants`. -/
def ginGenerator.generatePathConstants (env : Env) (t : ginGenerator)
    (file : FileDescriptorProto) : ginGenerator :=
  let t := t.P []
  file.Service.foldl (pathConstantsService env file) t

/-- Scan of the field loop of `hasHeaderTag`. -/
def hasHeaderTagFields (env : Env) : List FieldDescriptorProto → Bool
  | [] => false
  | f :: rest =>
    match env.GetMoreTags f with
    | some st =>
      if env.StructTagGet st "request" ≠ "" then true
      else if env.StructTagGet st "header" ≠ "" then true
      else hasHeaderTagFields env rest
    | none => hasHeaderTagFields env rest

/-- The method `hasHeaderTag`. -/
def hasHeaderTag (env : Env) (md : MessageDefinition) : Bool :=
  match md.Descriptor.Field with
  | [] => false
  | fields => hasHeaderTagFields env fields

/-- The local record `methodInfo` of `generateGinRoute`. -/
structure methodInfo where
  midwares : List String
  routeFuncName : String
  apiInfo : HTTPInfo
  methodName : String
  deriving DecidableEq, Repr

/-- The assignment `allMidwareMap[m] = true` on the key set of the map, kept
in the order the keys were first set. -/
def midwareMapSet (keys : List String) (m : String) : List String :=
  if m ∈ keys then keys else keys ++ [m]

/-- The variables the method loop of `generateGinRoute` updates. -/
structure routeLoopState where
  t : ginGenerator
  methList : List methodInfo
  allMidwareMap : List String
  deriving DecidableEq, Repr

/-- Body of the method loop of `generateGinRoute`. -/
def ginRouteMethod (env : Env) (file : FileDescriptorProto)
    (service : ServiceDescriptorProto) (servName svcName : String)
    (st : routeLoopState) (method : MethodDescriptorProto) : routeLoopState :=
  if env.ShouldGenForMethod file service method = false then
    st
  else
    let comments := (env.MethodComments file service method).1
    let tags := env.GetTagsInComment comments.Leading
    if env.GetTagValue "dynamic" tags = "true" then
      st
    else
      let apiInfo := env.GetHttpInfoCached file service method
      let midStr := env.GetTagValue "midware" tags
      let midwares := if midStr ≠ "" then stringsSplit midStr ',' else []
      let allMidwareMap := midwares.foldl midwareMapSet st.allMidwareMap
      let methName := env.MethodName method
      let inputType := env.GoTypeName method.InputType
      let routeName := env.LcFirst (env.CamelCase servName ++ env.CamelCase methName)
      let methList := st.methList ++ [{
        apiInfo := apiInfo,
        midwares := midwares,
        routeFuncName := routeName,
        methodName := method.Name }]
      let t := st.t
      let t := t.P ["func " ++ routeName ++ " (c *gin.Context) \x7b"]
      let t := t.P ["\tp := new(", inputType, ")"]
      let requestBinding :=
        if hasHeaderTag env (env.MessageDefinition method.InputType) = true then
          ", binding.Request"
        else ""
      let t := t.P ["\tif err := c.BindWith(p, binding.Default(c.Request.Method, c.Request.Header.Get(\"Content-Type\"))" ++
        requestBinding ++ "); err != nil \x7b"]
      let t := t.P ["\t\tc.JSON(http.StatusBadRequest, gin.H\x7b\"error\": err.Error()\x7d)"]
      let t := t.P ["\t\treturn"]
      let t := t.P ["\t\x7d"]
      let t := t.P ["\tresp, err := ", svcName, ".", methName, "(c, p)"]
      let t := t.P [" \tif err !=nil \x7b"]
      let t := t.P [" \t\tc.JSON(http.StatusInternalServerError, gin.H\x7b\"error\": err.Error()\x7d)"]
      let t := t.P ["\t\treturn"]
      let t := t.P ["\t\x7d"]
      let t := t.P ["\tc.JSON(http.StatusOK, resp)"]
      let t := t.P ["\x7d"]
      let t := t.P [""]
      { t := t, methList := methList, allMidwareMap := allMidwareMap }

/-- The method loop of `generateGinRoute`, entered after the line that
declares the service variable. -/
def ginRouteLoop (env : Env) (t : ginGenerator) (file : FileDescriptorProto)
    (service : ServiceDescriptorProto) : routeLoopState :=
  let servName := env.ServiceName service
  let versionPrefix := env.GetVersionPrefix t.GenPkgName
  let svcName := env.LcFirst (env.CamelCase versionPrefix) ++ servName ++ "Svc"
  let t := t.P ["var ", svcName, " ", servName, "GinServer"]
  service.Method.foldl (ginRouteMethod env file service servName svcName)
    { t := t, methList := [], allMidwareMap := [] }

/-- The slice `midList` of `generateGinRoute` after `sort.Strings`. -/
def ginRouteMidList (allMidwareMap : List String) : List String :=
  sortStrings (allMidwareMap.map (fun m => m ++ " gin.HandlerFunc"))

/-- Body of the loop of `generateGinRoute` over `methList`. -/
def ginRouteRegister (t : ginGenerator) (methInfo : methodInfo) : ginGenerator :=
  t.P ["e.", methInfo.apiInfo.HttpMethod, "(\"", methInfo.apiInfo.NewPath, "\",",
    methInfo.routeFuncName, " )"]

/-- The method `generateGinRoute`.  The sorted `midList` is computed and not
read again, as in the source. -/
def ginGenerator.generateGinRoute (env : Env) (t : ginGenerator)
    (file : FileDescriptorProto) (service : ServiceDescriptorProto) (_index : Nat) :
    ginGenerator :=
  let servName := env.ServiceName service
  let versionPrefix := env.GetVersionPrefix t.GenPkgName
  let svcName := env.LcFirst (env.CamelCase versionPrefix) ++ servName ++ "Svc"
  let st := ginRouteLoop env t file service
  let t := st.t
  let methList := st.methList
  -- generate route group
  let _midList := ginRouteMidList st.allMidwareMap
  let ginFuncName := "Register" ++ servName ++ "GinServer"
  let t := t.P ["// ", ginFuncName, " Register the gin route"]
  let t := t.P ["func ", ginFuncName, "(e *gin.Engine, server ", servName, "GinServer) \x7b"]
  let t := t.P [svcName, " = server"]
  let t := methList.foldl ginRouteRegister t
  t.P ["\t\x7d"]

/-- The method `generateInterfaceMethod`.  The comments passed in are
shadowed by the lookup for the method, as in the source. -/
def ginGenerator.generateInterfaceMethod (env : Env) (t : ginGenerator)
    (file : FileDescriptorProto) (service : ServiceDescriptorProto)
    (method : MethodDescriptorProto) (_comments : DefinitionComments) : ginGenerator :=
  let comments := (env.MethodComments file service method).1
  let errIsNil := (env.MethodComments file service method).2
  let methName := env.MethodName method
  let outputType := env.GoTypeName method.OutputType
  let inputType := env.GoTypeName method.InputType
  let tags := env.GetTagsInComment comments.Leading
  if env.GetTagValue "dynamic" tags = "true" then
    t
  else
    let t := if errIsNil = true then t.PrintComments env comments else t
    let respDynamic := decide (env.GetTagValue "dynamic_resp" tags = "true")
    if respDynamic = true then
      t.P ["\t" ++ methName ++ "(ctx context.Context, req *" ++ inputType ++
        ") (resp interface\x7b\x7d, err error)"]
    else
      t.P ["\t" ++ methName ++ "(ctx context.Context, req *" ++ inputType ++
        ") (resp *" ++ outputType ++ ", err error)"]

/-- Body of the method loop of `generateGinInterface`, on the pair of the
counter and the generator. -/
def ginInterfaceMethod (env : Env) (file : FileDescriptorProto)
    (service : ServiceDescriptorProto) (comments : DefinitionComments)
    (ct : Nat × ginGenerator) (method : MethodDescriptorProto) : Nat × ginGenerator :=
  if env.ShouldGenForMethod file service method = false then
    ct
  else
    let count := ct.1 + 1
    let t := ct.2.generateInterfaceMethod env file service method comments
    (count, t.P [])

/-- The method `generateGinInterface`: the count it returns and the
generator afterwards. -/
def ginGenerator.generateGinInterface (env : Env) (t : ginGenerator)
    (file : FileDescriptorProto) (service : ServiceDescriptorProto) : Nat × ginGenerator :=
  let servName := env.ServiceName service
  let t := t.P ["// " ++ servName ++ "GinServer is the server API for " ++ servName ++ " service."]
  let comments := (env.ServiceComments file service).1
  let errIsNil := (env.ServiceComments file service).2
  let t := if errIsNil = true then t.PrintComments env comments else t
  let t := t.P ["type ", servName, "GinServer interface \x7b"]
  let ct := service.Method.foldl (ginInterfaceMethod env file service comments) (0, t)
  (ct.1, ct.2.P ["\x7d"])

/-- The variables the service loop of `generateForFile` updates. -/
structure fileLoopState where
  i : Nat
  count : Nat
  t : ginGenerator
  deriving DecidableEq, Repr

/-- Body of the service loop of `generateForFile`. -/
def forFileService (env : Env) (file : FileDescriptorProto) (st : fileLoopState)
    (service : ServiceDescriptorProto) : fileLoopState :=
  let r := st.t.generateGinInterface env file service
  let count := st.count + r.1
  let t := r.2.generateGinRoute env file service st.i
  { i := st.i + 1, count := count, t := t }

/-- The generator of `generateForFile` at the call of `FormattedOutput`:
header, imports, path constants, then interface and routes per service. -/
def ginGenerator.generateForFilePrinted (env : Env) (t : ginGenerator)
    (file : FileDescriptorProto) : ginGenerator :=
  let t := t.generateFileHeader env file t.GenPkgName
  let t := t.generateImports env file
  let t := t.generatePathConstants env file
  (file.Service.foldl (forFileService env file) { i := 0, count := 0, t := t }).t

/-- The method `generateForFile`: the response file and the generator
afterwards, or `none` when `FormattedOutput` rejects the buffer and ends the
process. -/
def ginGenerator.generateForFile (env : Env) (t : ginGenerator)
    (file : FileDescriptorProto) :
    Option (CodeGeneratorResponse_File × ginGenerator) :=
  let t := t.generateForFilePrinted env file
  match env.FormattedOutput (bufferText t.Output) with
  | none => none
  | some content =>
    let resp : CodeGeneratorResponse_File :=
      { Name := env.GoFileName file ".gin.go",
        Content := content }
    let t := { t with Output := [] }
    let t := { t with filesHandled := t.filesHandled + 1 }
    some (resp, t)

/-- Body of the loop of `Generate` over the files to generate. -/
def generateFile (env : Env)
    (acc : Option (List CodeGeneratorResponse_File × ginGenerator))
    (f : FileDescriptorProto) : Option (List CodeGeneratorResponse_File × ginGenerator) :=
  match acc with
  | none => none
  | some (files, t) =>
    match t.generateForFile env f with
    | none => none
    | some (respFile, t) => some (files ++ [respFile], t)

/-- The method `Generate` after `t.Setup(in)`: the files of the response and
the generator afterwards, or `none` when the process ends in between. -/
def ginGenerator.Generate (env : Env) (t : ginGenerator) :
    Option (List CodeGeneratorResponse_File × ginGenerator) :=
  t.GenFiles.foldl (generateFile env) (some ([], t))

/-- The collaborators in a run that visits the dependency maps in the orders
given: everything else is as in `env`. -/
def Env.visiting (env : Env) (deps : FileDescriptorProto → List (String × String)) : Env :=
  { env with DeduceDeps := deps }

/-- The lines of a text: the pieces between its newlines. -/
def contentLines (content : String) : List String :=
  stringsSplit content '\n'

/-! ## Closed forms of the printed lines

The lines each method prints, as functions of its arguments.  They are
compared with the methods above in the section after. -/

/-- The generator after the given lines have been printed. -/
def ginGenerator.emit (t : ginGenerator) (lines : List String) : ginGenerator :=
  { t with Output := t.Output ++ lines }

/-- The tags of the leading comment of a method. -/
def methodTags (env : Env) (file : FileDescriptorProto) (service : ServiceDescriptorProto)
    (method : MethodDescriptorProto) : List String :=
  env.GetTagsInComment (env.MethodComments file service method).1.Leading

/-- A method is dynamic when its tag `dynamic` has the value "true". -/
def isDynamic (env : Env) (file : FileDescriptorProto) (service : ServiceDescriptorProto)
    (method : MethodDescriptorProto) : Bool :=
  decide (env.GetTagValue "dynamic" (methodTags env file service method) = "true")

/-- A method gets a route: it passes `ShouldGenForMethod` and is not dynamic. -/
def isRouted (env : Env) (file : FileDescriptorProto) (service : ServiceDescriptorProto)
    (method : MethodDescriptorProto) : Bool :=
  env.ShouldGenForMethod file service method && !isDynamic env file service method

/-- The name of the service variable, `svcName` in `generateGinRoute`. -/
def serviceVarName (env : Env) (genPkgName : String) (service : ServiceDescriptorProto) :
    String :=
  env.LcFirst (env.CamelCase (env.GetVersionPrefix genPkgName)) ++ env.ServiceName service ++ "Svc"

/-- The name of the handler function of a method, `routeName`. -/
def routeFuncName (env : Env) (service : ServiceDescriptorProto)
    (method : MethodDescriptorProto) : String :=
  env.LcFirst (env.CamelCase (env.ServiceName service) ++ env.CamelCase (env.MethodName method))

/-- The path constant line of a method. -/
def pathConstantLine (env : Env) (file : FileDescriptorProto)
    (service : ServiceDescriptorProto) (method : MethodDescriptorProto) : String :=
  String.join ["var Path", env.ServiceName service, env.MethodName method, " = \"",
    (env.GetHttpInfoCached file service method).Path, "\""]

/-- The interface signature with the opaque response type. -/
def signatureOpaque (env : Env) (method : MethodDescriptorProto) : String :=
  "\t" ++ env.MethodName method ++ "(ctx context.Context, req *" ++
    env.GoTypeName method.InputType ++ ") (resp interface\x7b\x7d, err error)"

/-- The interface signature with the declared output type. -/
def signatureTyped (env : Env) (method : MethodDescriptorProto) : String :=
  "\t" ++ env.MethodName method ++ "(ctx context.Context, req *" ++
    env.GoTypeName method.InputType ++ ") (resp *" ++ env.GoTypeName method.OutputType ++
    ", err error)"

/-- The interface signature of a method: opaque exactly when the tag
`dynamic_resp` has the value "true". -/
def signatureLine (env : Env) (file : FileDescriptorProto) (service : ServiceDescriptorProto)
    (method : MethodDescriptorProto) : String :=
  if env.GetTagValue "dynamic_resp" (methodTags env file service method) = "true" then
    signatureOpaque env method
  else signatureTyped env method

/-- The comment lines printed above the signature of a method. -/
def methodCommentLines (env : Env) (file : FileDescriptorProto)
    (service : ServiceDescriptorProto) (method : MethodDescriptorProto) : List String :=
  if (env.MethodComments file service method).2 = true then
    env.PrintComments (env.MethodComments file service method).1
  else []

/-- The line of the handler that binds the request, with the extra binding
mode given as text. -/
def bindWithLine (requestBinding : String) : String :=
  "\tif err := c.BindWith(p, binding.Default(c.Request.Method, c.Request.Header.Get(\"Content-Type\"))" ++
    requestBinding ++ "); err != nil \x7b"

/-- The handler function of a method. -/
def handlerLines (env : Env) (genPkgName : String) (service : ServiceDescriptorProto)
    (method : MethodDescriptorProto) : List String :=
  [ "func " ++ routeFuncName env service method ++ " (c *gin.Context) \x7b",
    String.join ["\tp := new(", env.GoTypeName method.InputType, ")"],
    bindWithLine
      (if hasHeaderTag env (env.MessageDefinition method.InputType) = true then
        ", binding.Request" else ""),
    "\t\tc.JSON(http.StatusBadRequest, gin.H\x7b\"error\": err.Error()\x7d)",
    "\t\treturn",
    "\t\x7d",
    String.join ["\tresp, err := ", serviceVarName env genPkgName service, ".",
      env.MethodName method, "(c, p)"],
    " \tif err !=nil \x7b",
    " \t\tc.JSON(http.StatusInternalServerError, gin.H\x7b\"error\": err.Error()\x7d)",
    "\t\treturn",
    "\t\x7d",
    "\tc.JSON(http.StatusOK, resp)",
    "\x7d",
    "" ]

/-- The route of a method: HTTP verb, path and handler name. -/
def routeTriple (env : Env) (file : FileDescriptorProto) (service : ServiceDescriptorProto)
    (method : MethodDescriptorProto) : String × String × String :=
  ((env.GetHttpInfoCached file service method).HttpMethod,
   (env.GetHttpInfoCached file service method).NewPath,
   routeFuncName env service method)

/-- The registration line of a route. -/
def registrationLine (r : String × String × String) : String :=
  String.join ["e.", r.1, "(\"", r.2.1, "\",", r.2.2, " )"]

/-- The middleware list of a method: its tag `midware` split at commas. -/
def methodMidwares (env : Env) (file : FileDescriptorProto) (service : ServiceDescriptorProto)
    (method : MethodDescriptorProto) : List String :=
  if env.GetTagValue "midware" (methodTags env file service method) ≠ "" then
    stringsSplit (env.GetTagValue "midware" (methodTags env file service method)) ','
  else []

/-- The entry of `methList` for a method. -/
def methodInfoOf (env : Env) (file : FileDescriptorProto) (service : ServiceDescriptorProto)
    (method : MethodDescriptorProto) : methodInfo :=
  { midwares := methodMidwares env file service method,
    routeFuncName := routeFuncName env service method,
    apiInfo := env.GetHttpInfoCached file service method,
    methodName := method.Name }

/-- The key set of `allMidwareMap` after the routed methods of a list. -/
def midwareKeys (env : Env) (file : FileDescriptorProto) (service : ServiceDescriptorProto)
    (methods : List MethodDescriptorProto) (keys : List String) : List String :=
  (methods.filter (isRouted env file service)).foldl
    (fun keys method => (methodMidwares env file service method).foldl midwareMapSet keys) keys

/-- What the path constant loop prints for one method. -/
def pathConstantOf (env : Env) (file : FileDescriptorProto) (service : ServiceDescriptorProto)
    (method : MethodDescriptorProto) : List String :=
  if env.ShouldGenForMethod file service method = true then
    [pathConstantLine env file service method]
  else []

/-- What the interface loop prints for one method. -/
def interfaceOf (env : Env) (file : FileDescriptorProto) (service : ServiceDescriptorProto)
    (method : MethodDescriptorProto) : List String :=
  if env.ShouldGenForMethod file service method = true then
    (if isDynamic env file service method = true then []
     else methodCommentLines env file service method ++ [signatureLine env file service method])
      ++ [""]
  else []

/-- What the handler loop prints for one method. -/
def handlerOf (env : Env) (genPkgName : String) (file : FileDescriptorProto)
    (service : ServiceDescriptorProto) (method : MethodDescriptorProto) : List String :=
  if isRouted env file service method = true then handlerLines env genPkgName service method
  else []

/-- What the registration loop prints for one method. -/
def registrationOf (env : Env) (file : FileDescriptorProto) (service : ServiceDescriptorProto)
    (method : MethodDescriptorProto) : List String :=
  if isRouted env file service method = true then
    [registrationLine (routeTriple env file service method)]
  else []

/-- The signature line of the registration function of a service. -/
def registerSignatureLine (env : Env) (service : ServiceDescriptorProto) : String :=
  String.join ["func ", "Register" ++ env.ServiceName service ++ "GinServer",
    "(e *gin.Engine, server ", env.ServiceName service, "GinServer) \x7b"]

/-- The lines `generateGinRoute` prints for a service. -/
def ginRouteLines (env : Env) (genPkgName : String) (file : FileDescriptorProto)
    (service : ServiceDescriptorProto) : List String :=
  [String.join ["var ", serviceVarName env genPkgName service, " ", env.ServiceName service,
      "GinServer"]]
    ++ service.Method.flatMap (handlerOf env genPkgName file service)
    ++ [ String.join ["// ", "Register" ++ env.ServiceName service ++ "GinServer",
          " Register the gin route"],
         registerSignatureLine env service,
         String.join [serviceVarName env genPkgName service, " = server"] ]
    ++ service.Method.flatMap (registrationOf env file service)
    ++ ["\t\x7d"]

/-- The comment lines printed above the interface of a service. -/
def serviceCommentLines (env : Env) (file : FileDescriptorProto)
    (service : ServiceDescriptorProto) : List String :=
  if (env.ServiceComments file service).2 = true then
    env.PrintComments (env.ServiceComments file service).1
  else []

/-- The lines `generateGinInterface` prints for a service. -/
def ginInterfaceLines (env : Env) (file : FileDescriptorProto)
    (service : ServiceDescriptorProto) : List String :=
  ["// " ++ env.ServiceName service ++ "GinServer is the server API for " ++
      env.ServiceName service ++ " service."]
    ++ serviceCommentLines env file service
    ++ [String.join ["type ", env.ServiceName service, "GinServer interface \x7b"]]
    ++ service.Method.flatMap (interfaceOf env file service)
    ++ ["\x7d"]

/-- The lines `generatePathConstants` prints for one service: the constants
of its methods and a blank line. -/
def pathConstantsServiceLines (env : Env) (file : FileDescriptorProto)
    (service : ServiceDescriptorProto) : List String :=
  service.Method.flatMap (pathConstantOf env file service) ++ [""]

/-- The lines `generatePathConstants` prints for a file. -/
def pathConstantsLines (env : Env) (file : FileDescriptorProto) : List String :=
  [""] ++ file.Service.flatMap (pathConstantsServiceLines env file)

/-- The import lines printed for one entry of the dependency map. -/
def importsDepLines (env : Env) (file : FileDescriptorProto) (dep : String × String) :
    List String :=
  file.Service.flatMap (fun service =>
    service.Method.flatMap (fun method =>
      if stringsHasPrefix dep.1 (env.GoTypeName method.OutputType) = true ∨
          stringsHasPrefix dep.1 (env.GoTypeName method.InputType) = true then
        [String.join ["import ", dep.1, " ", dep.2]]
      else []))

/-- The lines `generateImports` prints for a file. -/
def importsLines (env : Env) (file : FileDescriptorProto) : List String :=
  ["import (", "\t\"context\"", "", "\t\"github.com/gin-gonic/gin\"",
    "\t\"github.com/gin-gonic/gin/binding\"", ")"]
    ++ (env.DeduceDeps file).flatMap (importsDepLines env file)
    ++ (if (env.DeduceDeps file).length > 0 then [""] else [])
    ++ ["", "// to suppressed 'imported but not used warning'", "var _ *gin.Context",
        "var _ context.Context", "var _ binding.StructValidator"]

/-- The package doc block `generateFileHeader` prints for the first file. -/
def fileDocLines (env : Env) (genPkgName : String) (genFiles : List FileDescriptorProto)
    (file : FileDescriptorProto) : List String :=
  ["/*",
    String.join ["Package ", genPkgName, " is a generated blademaster stub package."],
    String.join ["This code was generated with dangerous1990/protoc-gen-ginGenerator ",
      env.Version, "."],
    ""]
    ++ (if (env.FileComments file).2 = true ∧ (env.FileComments file).1.Leading ≠ "" then
          (stringsSplit (env.FileComments file).1.Leading '\n').map
            (fun line => replaceCommentEnd (trimPrefixSpace line)) ++ [""]
        else [])
    ++ ["It is generated from these files:"]
    ++ genFiles.map (fun f => String.join ["\t", f.Name])
    ++ ["*/"]

/-- The lines `generateFileHeader` prints; the doc block only when no file
has been handled yet. -/
def fileHeaderLines (env : Env) (genPkgName : String) (genFiles : List FileDescriptorProto)
    (filesHandled : Nat) (file : FileDescriptorProto) (pkgName : String) : List String :=
  [String.join ["// Code generated by protoc-gen-gin ", env.Version, ", DO NOT EDIT."],
    String.join ["// source: ", file.Name],
    ""]
    ++ (if filesHandled = 0 then fileDocLines env genPkgName genFiles file else [])
    ++ [String.join ["package ", pkgName], ""]

/-- The lines `generateForFile` has printed when it formats the buffer. -/
def forFileLines (env : Env) (genPkgName : String) (genFiles : List FileDescriptorProto)
    (filesHandled : Nat) (file : FileDescriptorProto) : List String :=
  fileHeaderLines env genPkgName genFiles filesHandled file genPkgName
    ++ importsLines env file
    ++ pathConstantsLines env file
    ++ file.Service.flatMap (fun service =>
        ginInterfaceLines env file service ++ ginRouteLines env genPkgName file service)

/-! ## Telling lines apart

The first and the last characters of a line are enough to tell the three
lines of a method from the fixed lines the generator prints. -/

/-- The first character of a line. -/
def firstChar (s : String) : Option Char := s.data.head?

/-- The last character of a line. -/
def lastChar (s : String) : Option Char := s.data.reverse.head?

/-- The last character but one of a line. -/
def lastChar2 (s : String) : Option Char := s.data.reverse.tail.head?

/-- A line that cannot be a path constant line: those start with `v` and
end with a double quote. -/
def notConstantLike (l : String) : Prop :=
  firstChar l ≠ some 'v' ∨ lastChar l ≠ some '"'

/-- A line that cannot be a registration line: those start with `e` and
end with a closing parenthesis. -/
def notRegistrationLike (l : String) : Prop :=
  firstChar l ≠ some 'e' ∨ lastChar l ≠ some ')'

/-- A line that cannot be a signature: those start with a tab and end with
`r)`. -/
def notSignatureLike (l : String) : Prop :=
  firstChar l ≠ some '\t' ∨ lastChar l ≠ some ')' ∨ lastChar2 l ≠ some 'r'

/-! ## A sample environment and sample schemas

One admissible choice of the collaborators, and the `Order` schemas the
concrete statements below are evaluated on.  Comments and HTTP annotations
live in the registry, so the sample environment looks them up by method
name. -/

/-- Sample `reflect.StructTag.Get` for a tag that holds one `key:"value"`
pair: the value when the key is the one asked for, the empty string
otherwise. -/
def sampleStructTagGet (tag key : String) : String :=
  if (key.data ++ [':', '"']).isPrefixOf tag.data = true then
    String.mk ((tag.data.drop (key.data.length + 2)).takeWhile (fun c => c ≠ '"'))
  else ""

/-- Sample `tag.GetTagValue`: the first non-empty value among the tags. -/
def sampleGetTagValue (key : String) : List String → String
  | [] => ""
  | t :: rest =>
    if sampleStructTagGet t key ≠ "" then sampleStructTagGet t key
    else sampleGetTagValue key rest

/-- Sample leading comments of the methods. -/
def sampleMethodComment (method : MethodDescriptorProto) : String :=
  if method.Name = "Create" then "midware:\"a,b\""
  else if method.Name = "Cancel" then "dynamic:\"true\""
  else if method.Name = "Search" then "midware:\"b,a\""
  else if method.Name = "Update" then "midware:\"a\""
  else if method.Name = "Export" then "dynamic_resp:\"true\""
  else if method.Name = "Report" then "dynamic_resp:\"True\""
  else ""

/-- Sample HTTP annotations of the methods. -/
def sampleHttpInfo (method : MethodDescriptorProto) : HTTPInfo :=
  if method.Name = "Get" then
    { HttpMethod := "GET", Path := "/orders/:id", NewPath := "/orders/:id" }
  else if method.Name = "Fetch" then
    { HttpMethod := "GET", Path := "/orders/:id", NewPath := "/orders/:id" }
  else if method.Name = "Create" then
    { HttpMethod := "POST", Path := "/orders", NewPath := "/orders" }
  else if method.Name = "Cancel" then
    { HttpMethod := "POST", Path := "/orders/cancel", NewPath := "/orders/cancel" }
  else
    { HttpMethod := "GET", Path := "/order/" ++ method.Name, NewPath := "/order/" ++ method.Name }

/-- Sample message registry: `CreateReq` has a field bound to a header. -/
def sampleMessageDefinition (name : String) : MessageDefinition :=
  if name = "CreateReq" then
    { Descriptor := { Field := [{ Name := "item" }, { Name := "token" }] } }
  else if name = "GetReq" then
    { Descriptor := { Field := [{ Name := "id" }] } }
  else
    { Descriptor := { Field := [] } }

/-- Sample `tag.GetMoreTags`: the extra tags of the fields. -/
def sampleGetMoreTags (f : FieldDescriptorProto) : Option String :=
  if f.Name = "token" then some "header:\"X-Token\""
  else if f.Name = "id" then some "form:\"id\""
  else none

/-- Sample `utils.LcFirst`: lower-case the first letter. -/
def sampleLcFirst (s : String) : String :=
  match s.data with
  | [] => ""
  | c :: rest => String.mk (c.toLower :: rest)

/-- Sample `naming.GoFileName`: the name of the file without its extension
`.proto`, followed by the suffix. -/
def sampleGoFileName (file : FileDescriptorProto) (suffix : String) : String :=
  match file.Name.data.reverse with
  | 'o' :: 't' :: 'o' :: 'r' :: 'p' :: '.' :: rest => String.mk rest.reverse ++ suffix
  | _ => file.Name ++ suffix

/-- The sample environment.  Its formatter accepts every text and returns it
as it is. -/
def sampleEnv : Env :=
  { Version := "v0.1",
    ShouldGenForMethod := fun _ _ _ => true,
    GetHttpInfoCached := fun _ _ method => sampleHttpInfo method,
    FileComments := fun _ => ({ Leading := "" }, true),
    ServiceComments := fun _ _ => ({ Leading := "" }, true),
    MethodComments := fun _ _ method => ({ Leading := sampleMethodComment method }, true),
    MessageDefinition := sampleMessageDefinition,
    GoTypeName := fun name => name,
    DeduceDeps := fun _ => [],
    PrintComments := fun comments =>
      if comments.Leading = "" then [] else ["// " ++ comments.Leading],
    FormattedOutput := fun text => some text,
    ServiceName := fun service => service.Name,
    MethodName := fun method => method.Name,
    GoFileName := sampleGoFileName,
    GetVersionPrefix := fun _ => "",
    LcFirst := sampleLcFirst,
    CamelCase := fun s => s,
    GetTagsInComment := fun comment => if comment = "" then [] else [comment],
    GetTagValue := sampleGetTagValue,
    GetMoreTags := sampleGetMoreTags,
    StructTagGet := sampleStructTagGet }

/-- Sample method `Get`. -/
def methodGet : MethodDescriptorProto :=
  { Name := "Get", InputType := "GetReq", OutputType := "Order" }

/-- Sample method `Create`, with middleware `a,b`. -/
def methodCreate : MethodDescriptorProto :=
  { Name := "Create", InputType := "CreateReq", OutputType := "Order" }

/-- Sample method `Cancel`, marked dynamic. -/
def methodCancel : MethodDescriptorProto :=
  { Name := "Cancel", InputType := "CancelReq", OutputType := "Order" }

/-- Sample method `Fetch`, with the verb and path of `Get`. -/
def methodFetch : MethodDescriptorProto :=
  { Name := "Fetch", InputType := "GetReq", OutputType := "Order" }

/-- Sample method `Search`, with middleware `b,a`. -/
def methodSearch : MethodDescriptorProto :=
  { Name := "Search", InputType := "SearchReq", OutputType := "Orders" }

/-- Sample method `Update`, with middleware `a`. -/
def methodUpdate : MethodDescriptorProto :=
  { Name := "Update", InputType := "UpdateReq", OutputType := "Order" }

/-- Sample method `Export`, with `dynamic_resp` set to "true". -/
def methodExport : MethodDescriptorProto :=
  { Name := "Export", InputType := "ExportReq", OutputType := "Sheet" }

/-- Sample method `Report`, with `dynamic_resp` set to "True". -/
def methodReport : MethodDescriptorProto :=
  { Name := "Report", InputType := "ReportReq", OutputType := "Sheet" }

/-- The service of the example of the specification: `Get`, `Create` and
the dynamic `Cancel`. -/
def orderService : ServiceDescriptorProto :=
  { Name := "Order", Method := [methodGet, methodCreate, methodCancel] }

/-- The file holding `orderService`. -/
def orderFile : FileDescriptorProto :=
  { Name := "order.proto", Service := [orderService] }

/-- A service whose methods `Get` and `Fetch` share verb and path. -/
def clashService : ServiceDescriptorProto :=
  { Name := "Order", Method := [methodGet, methodFetch] }

/-- The file holding `clashService`. -/
def clashFile : FileDescriptorProto :=
  { Name := "order.proto", Service := [clashService] }

/-- A service whose methods declare the middleware `b,a` and `a`. -/
def midwareService : ServiceDescriptorProto :=
  { Name := "Order", Method := [methodSearch, methodUpdate] }

/-- The file holding `midwareService`. -/
def midwareFile : FileDescriptorProto :=
  { Name := "order.proto", Service := [midwareService] }

/-- A service whose methods carry the tag `dynamic_resp`: `Export` with the
value "true", `Report` with the value "True". -/
def exportService : ServiceDescriptorProto :=
  { Name := "Order", Method := [methodExport, methodReport] }

/-- The file holding `exportService`. -/
def exportFile : FileDescriptorProto :=
  { Name := "order.proto", Service := [exportService] }

/-- Sample method `Link`, whose input type `c` is a prefix of the names of
the packages `common` and `core`. -/
def methodLink : MethodDescriptorProto :=
  { Name := "Link", InputType := "c", OutputType := "Order" }

/-- A service with the method `Link`. -/
def linkService : ServiceDescriptorProto :=
  { Name := "Order", Method := [methodLink] }

/-- The file holding `linkService`. -/
def linkFile : FileDescriptorProto :=
  { Name := "order.proto", Service := [linkService] }

/-- The dependency map with the packages `common` and `core`, visited
`common` first. -/
def depsCommonFirst (_ : FileDescriptorProto) : List (String × String) :=
  [("common", "\"common\""), ("core", "\"core\"")]

/-- The same dependency map, visited `core` first. -/
def depsCoreFirst (_ : FileDescriptorProto) : List (String × String) :=
  [("core", "\"core\""), ("common", "\"common\"")]

/-- A new generator after `t.Setup` for a request with one file of package
`api`. -/
def sampleGenerator (file : FileDescriptorProto) : ginGenerator :=
  { GinGenerator with GenPkgName := "api", GenFiles := [file] }

/-- The sample generator after it has handled `n + 1` files. -/
def laterGenerator (file : FileDescriptorProto) (n : Nat) : ginGenerator :=
  { sampleGenerator file with filesHandled := n + 1 }

/-- Sample `naming.MethodName` that turns the snake-case name `get_item`
into the Go name `GetItem` and keeps names that are Go names already. -/
def sampleMethodName (method : MethodDescriptorProto) : String :=
  if method.Name = "get_item" then "GetItem" else method.Name

/-- The sample environment with Go method names and with every method
annotated `GET /item`. -/
def itemEnv : Env :=
  { sampleEnv with
    MethodName := sampleMethodName,
    GetHttpInfoCached := fun _ _ _ =>
      { HttpMethod := "GET", Path := "/item", NewPath := "/item" } }

/-- Sample method `get_item`. -/
def methodGetItemSnake : MethodDescriptorProto :=
  { Name := "get_item", InputType := "ItemReq", OutputType := "Item" }

/-- Sample method `GetItem`. -/
def methodGetItem : MethodDescriptorProto :=
  { Name := "GetItem", InputType := "ItemReq", OutputType := "Item" }

/-- A service whose methods `get_item` and `GetItem` have distinct names and
the same Go name. -/
def itemService : ServiceDescriptorProto :=
  { Name := "Item", Method := [methodGetItemSnake, methodGetItem] }

/-- The file holding `itemService`. -/
def itemFile : FileDescriptorProto :=
  { Name := "item.proto", Service := [itemService] }

/-- A second service with the method `Get`. -/
def stockService : ServiceDescriptorProto :=
  { Name := "Stock", Method := [methodGet] }

/-- A file with the services `Order` and `Stock`, which both have the method
`Get`. -/
def twoServiceFile : FileDescriptorProto :=
  { Name := "order.proto", Service := [orderService, stockService] }

/-- Sample relation between a buffer line and a line of the content: the
sample formatter keeps every line as it is. -/
def sameLine (a b : String) : Bool :=
  decide (a = b)

/-! ## The methods print their closed forms -/

theorem P_eq_emit (t : ginGenerator) (args : List String) :
    t.P args = t.emit [String.join args] := rfl

theorem emit_nil (t : ginGenerator) : t.emit [] = t := by
  cases t; simp [ginGenerator.emit]

theorem emit_emit (t : ginGenerator) (a b : List String) :
    (t.emit a).emit b = t.emit (a ++ b) := by
  simp [ginGenerator.emit, List.append_assoc]

@[simp] theorem emit_GenPkgName (t : ginGenerator) (a : List String) :
    (t.emit a).GenPkgName = t.GenPkgName := rfl

@[simp] theorem emit_GenFiles (t : ginGenerator) (a : List String) :
    (t.emit a).GenFiles = t.GenFiles := rfl

@[simp] theorem emit_filesHandled (t : ginGenerator) (a : List String) :
    (t.emit a).filesHandled = t.filesHandled := rfl

@[simp] theorem emit_Output (t : ginGenerator) (a : List String) :
    (t.emit a).Output = t.Output ++ a := rfl

/-- A loop whose body prints lines that depend on the element only prints
the concatenation of those lines. -/
theorem foldl_emit {α : Type} (f : ginGenerator → α → ginGenerator) (g : α → List String)
    (h : ∀ t x, f t x = t.emit (g x)) (l : List α) (t : ginGenerator) :
    l.foldl f t = t.emit (l.flatMap g) := by
  induction l generalizing t with
  | nil => simp [emit_nil]
  | cons x xs ih => simp [List.foldl_cons, h, ih, emit_emit]

/-- A loop whose body prints one line prints one line per element. -/
theorem foldl_emit_map {α : Type} (f : ginGenerator → α → ginGenerator) (g : α → String)
    (h : ∀ t x, f t x = t.emit [g x]) (l : List α) (t : ginGenerator) :
    l.foldl f t = t.emit (l.map g) := by
  induction l generalizing t with
  | nil => simp [emit_nil]
  | cons x xs ih => simp [List.foldl_cons, h, ih, emit_emit]

@[simp] theorem join_nil : String.join [] = "" := rfl

@[simp] theorem join_singleton (a : String) : String.join [a] = a := by
  simp [String.join]

theorem PrintComments_eq (env : Env) (t : ginGenerator) (comments : DefinitionComments) :
    t.PrintComments env comments = t.emit (env.PrintComments comments) := by
  unfold ginGenerator.PrintComments
  rw [foldl_emit_map (fun t line => t.P [line]) (fun line => line)]
  · simp
  · intro t x
    simp [P_eq_emit]

theorem generateFileHeader_eq (env : Env) (t : ginGenerator) (file : FileDescriptorProto)
    (pkgName : String) :
    t.generateFileHeader env file pkgName
      = t.emit (fileHeaderLines env t.GenPkgName t.GenFiles t.filesHandled file pkgName) := by
  unfold ginGenerator.generateFileHeader fileHeaderLines fileDocLines
  have hc : ∀ (t : ginGenerator) (l : List String),
      l.foldl fileHeaderCommentLine t
        = t.emit (l.map (fun line => replaceCommentEnd (trimPrefixSpace line))) := by
    intro t l
    exact foldl_emit_map fileHeaderCommentLine _
      (by intro t x; simp [fileHeaderCommentLine, P_eq_emit]) l t
  have hf : ∀ (t : ginGenerator) (l : List FileDescriptorProto),
      l.foldl fileHeaderGenFile t = t.emit (l.map (fun f => String.join ["\t", f.Name])) := by
    intro t l
    exact foldl_emit_map fileHeaderGenFile _
      (by intro t x; simp [fileHeaderGenFile, P_eq_emit]) l t
  simp only [hc, hf, P_eq_emit, emit_emit, emit_filesHandled, emit_GenPkgName, emit_GenFiles]
  by_cases h0 : t.filesHandled = 0
  · by_cases hcm : (env.FileComments file).2 = true ∧ (env.FileComments file).1.Leading ≠ ""
    · simp [h0, hcm, emit_emit]
    · simp [h0, hcm, emit_emit]
  · simp [h0, emit_emit]

theorem generateImports_eq (env : Env) (t : ginGenerator) (file : FileDescriptorProto) :
    t.generateImports env file = t.emit (importsLines env file) := by
  unfold ginGenerator.generateImports importsLines
  have hd : ∀ (t : ginGenerator) (l : List (String × String)),
      l.foldl (importsDep env file) t = t.emit (l.flatMap (importsDepLines env file)) := by
    intro t l
    refine foldl_emit (importsDep env file) _ ?_ l t
    intro t dep
    unfold importsDep importsDepLines
    refine foldl_emit _ _ ?_ file.Service t
    intro t service
    refine foldl_emit _ _ ?_ service.Method t
    intro t method
    unfold importsMethod
    by_cases h : stringsHasPrefix dep.1 (env.GoTypeName method.OutputType) = true ∨
        stringsHasPrefix dep.1 (env.GoTypeName method.InputType) = true
    · simp only [h, if_true, P_eq_emit]
    · simp only [h, if_false, emit_nil]
  simp only [hd, P_eq_emit, emit_emit]
  by_cases h0 : (env.DeduceDeps file).length > 0
  · simp [h0, emit_emit]
  · simp [h0, emit_emit]

theorem pathConstantsMethod_eq (env : Env) (file : FileDescriptorProto)
    (service : ServiceDescriptorProto) (t : ginGenerator) (method : MethodDescriptorProto) :
    pathConstantsMethod env file service (env.ServiceName service) t method
      = t.emit (pathConstantOf env file service method) := by
  unfold pathConstantsMethod pathConstantOf pathConstantLine
  cases h : env.ShouldGenForMethod file service method
  · simp [emit_nil]
  · simp [P_eq_emit]

theorem generatePathConstants_eq (env : Env) (t : ginGenerator) (file : FileDescriptorProto) :
    t.generatePathConstants env file = t.emit (pathConstantsLines env file) := by
  unfold ginGenerator.generatePathConstants pathConstantsLines
  have hs : ∀ (t : ginGenerator) (service : ServiceDescriptorProto),
      pathConstantsService env file t service
        = t.emit (pathConstantsServiceLines env file service) := by
    intro t service
    unfold pathConstantsService pathConstantsServiceLines
    simp only [foldl_emit _ _ (pathConstantsMethod_eq env file service) service.Method t,
      P_eq_emit, emit_emit, join_nil]
  simp only [foldl_emit _ _ hs, P_eq_emit, emit_emit, join_nil]

/-- Printing one line per element that passes a test is a filter and a map. -/
theorem flatMap_ite_singleton {α β : Type} (p : α → Bool) (g : α → β) (l : List α) :
    l.flatMap (fun x => if p x = true then [g x] else []) = (l.filter p).map g := by
  induction l with
  | nil => rfl
  | cons x xs ih =>
    cases h : p x <;> simp [List.flatMap_cons, List.filter_cons, h, ih]

/-- The state of the method loop of `generateGinRoute` after one method. -/
theorem ginRouteMethod_eq (env : Env) (genPkgName : String) (file : FileDescriptorProto)
    (service : ServiceDescriptorProto) (st : routeLoopState) (method : MethodDescriptorProto) :
    ginRouteMethod env file service (env.ServiceName service)
        (serviceVarName env genPkgName service) st method
      = { t := st.t.emit (handlerOf env genPkgName file service method),
          methList := st.methList ++
            (if isRouted env file service method = true then
              [methodInfoOf env file service method] else []),
          allMidwareMap :=
            if isRouted env file service method = true then
              (methodMidwares env file service method).foldl midwareMapSet st.allMidwareMap
            else st.allMidwareMap } := by
  unfold ginRouteMethod handlerOf isRouted isDynamic
  cases hg : env.ShouldGenForMethod file service method
  · cases st; simp [emit_nil]
  · by_cases hd : env.GetTagValue "dynamic" (methodTags env file service method) = "true"
    · have hd' := hd
      unfold methodTags at hd'
      cases st; simp [hd, hd', emit_nil]
    · have hd' := hd
      unfold methodTags at hd'
      simp only [hd, hd', if_false, Bool.true_and, decide_False, Bool.not_false, if_true,
        P_eq_emit, emit_emit, Bool.true_eq_false]
      simp [handlerLines, methodInfoOf, methodMidwares, routeFuncName, methodTags, bindWithLine]

theorem ginRouteMethod_foldl (env : Env) (genPkgName : String) (file : FileDescriptorProto)
    (service : ServiceDescriptorProto) (methods : List MethodDescriptorProto)
    (st : routeLoopState) :
    methods.foldl (ginRouteMethod env file service (env.ServiceName service)
        (serviceVarName env genPkgName service)) st
      = { t := st.t.emit (methods.flatMap (handlerOf env genPkgName file service)),
          methList := st.methList ++
            (methods.filter (isRouted env file service)).map (methodInfoOf env file service),
          allMidwareMap := midwareKeys env file service methods st.allMidwareMap } := by
  induction methods generalizing st with
  | nil => cases st; simp [emit_nil, midwareKeys]
  | cons m ms ih =>
    rw [List.foldl_cons, ginRouteMethod_eq, ih]
    cases h : isRouted env file service m <;>
      simp [h, emit_emit, midwareKeys, List.filter_cons, List.flatMap_cons]

theorem ginRouteLoop_eq (env : Env) (t : ginGenerator) (file : FileDescriptorProto)
    (service : ServiceDescriptorProto) :
    ginRouteLoop env t file service
      = { t := t.emit
            ([String.join ["var ", serviceVarName env t.GenPkgName service, " ",
                env.ServiceName service, "GinServer"]]
              ++ service.Method.flatMap (handlerOf env t.GenPkgName file service)),
          methList :=
            (service.Method.filter (isRouted env file service)).map
              (methodInfoOf env file service),
          allMidwareMap := midwareKeys env file service service.Method [] } := by
  unfold ginRouteLoop
  have h := ginRouteMethod_foldl env t.GenPkgName file service service.Method
    { t := t.P ["var ", serviceVarName env t.GenPkgName service, " ",
        env.ServiceName service, "GinServer"], methList := [], allMidwareMap := [] }
  simp only [serviceVarName] at h ⊢
  rw [h]
  simp [P_eq_emit, emit_emit]

theorem generateGinRoute_eq (env : Env) (t : ginGenerator) (file : FileDescriptorProto)
    (service : ServiceDescriptorProto) (index : Nat) :
    t.generateGinRoute env file service index
      = t.emit (ginRouteLines env t.GenPkgName file service) := by
  unfold ginGenerator.generateGinRoute
  rw [ginRouteLoop_eq]
  have hr : ∀ (t : ginGenerator) (l : List methodInfo),
      l.foldl ginRouteRegister t
        = t.emit (l.map (fun mi =>
            registrationLine (mi.apiInfo.HttpMethod, mi.apiInfo.NewPath, mi.routeFuncName))) := by
    intro t l
    exact foldl_emit_map ginRouteRegister _
      (by intro t x; simp [ginRouteRegister, registrationLine, P_eq_emit]) l t
  have hreg : service.Method.flatMap (registrationOf env file service)
      = (service.Method.filter (isRouted env file service)).map
          (fun m => registrationLine (routeTriple env file service m)) :=
    flatMap_ite_singleton (isRouted env file service)
      (fun m => registrationLine (routeTriple env file service m)) service.Method
  simp only [hr, hreg, P_eq_emit, emit_emit, ginRouteLines, registerSignatureLine,
    serviceVarName, List.map_map]
  simp [Function.comp_def, methodInfoOf, routeTriple]

theorem generateInterfaceMethod_eq (env : Env) (t : ginGenerator) (file : FileDescriptorProto)
    (service : ServiceDescriptorProto) (method : MethodDescriptorProto)
    (comments : DefinitionComments) :
    t.generateInterfaceMethod env file service method comments
      = t.emit
          (if isDynamic env file service method = true then []
           else methodCommentLines env file service method ++
             [signatureLine env file service method]) := by
  unfold ginGenerator.generateInterfaceMethod isDynamic methodCommentLines signatureLine
    signatureOpaque signatureTyped methodTags
  by_cases hd : env.GetTagValue "dynamic"
      (env.GetTagsInComment (env.MethodComments file service method).1.Leading) = "true"
  · simp [hd, emit_nil]
  · by_cases hr : env.GetTagValue "dynamic_resp"
        (env.GetTagsInComment (env.MethodComments file service method).1.Leading) = "true"
    · cases he : (env.MethodComments file service method).2 <;>
        simp [hd, hr, he, P_eq_emit, emit_emit, PrintComments_eq]
    · cases he : (env.MethodComments file service method).2 <;>
        simp [hd, hr, he, P_eq_emit, emit_emit, PrintComments_eq]

theorem ginInterfaceMethod_foldl (env : Env) (file : FileDescriptorProto)
    (service : ServiceDescriptorProto) (comments : DefinitionComments)
    (methods : List MethodDescriptorProto) (ct : Nat × ginGenerator) :
    methods.foldl (ginInterfaceMethod env file service comments) ct
      = (ct.1 + (methods.filter (env.ShouldGenForMethod file service)).length,
         ct.2.emit (methods.flatMap (interfaceOf env file service))) := by
  induction methods generalizing ct with
  | nil => simp [emit_nil]
  | cons m ms ih =>
    rw [List.foldl_cons, ih]
    unfold ginInterfaceMethod interfaceOf
    cases h : env.ShouldGenForMethod file service m
    · simp [h, List.filter_cons, List.flatMap_cons]
    · simp [h, List.filter_cons, List.flatMap_cons, generateInterfaceMethod_eq, P_eq_emit,
        emit_emit]
      omega

theorem generateGinInterface_eq (env : Env) (t : ginGenerator) (file : FileDescriptorProto)
    (service : ServiceDescriptorProto) :
    t.generateGinInterface env file service
      = ((service.Method.filter (env.ShouldGenForMethod file service)).length,
         t.emit (ginInterfaceLines env file service)) := by
  unfold ginGenerator.generateGinInterface ginInterfaceLines serviceCommentLines
  simp only [ginInterfaceMethod_foldl]
  cases he : (env.ServiceComments file service).2 <;>
    simp [he, P_eq_emit, emit_emit, PrintComments_eq]

theorem forFileService_foldl (env : Env) (file : FileDescriptorProto)
    (services : List ServiceDescriptorProto) (st : fileLoopState) :
    (services.foldl (forFileService env file) st).t
      = st.t.emit (services.flatMap (fun service =>
          ginInterfaceLines env file service
            ++ ginRouteLines env st.t.GenPkgName file service)) := by
  induction services generalizing st with
  | nil => simp [emit_nil]
  | cons x xs ih =>
    rw [List.foldl_cons, ih]
    simp [forFileService, generateGinInterface_eq, generateGinRoute_eq, emit_emit,
      List.flatMap_cons]

/-- The generator at the call of `FormattedOutput` holds the closed form. -/
theorem generateForFilePrinted_eq (env : Env) (t : ginGenerator) (file : FileDescriptorProto) :
    t.generateForFilePrinted env file
      = t.emit (forFileLines env t.GenPkgName t.GenFiles t.filesHandled file) := by
  unfold ginGenerator.generateForFilePrinted forFileLines
  rw [forFileService_foldl]
  simp [generateFileHeader_eq, generateImports_eq, generatePathConstants_eq, emit_emit]

theorem foldl_append_eq (l : List String) (acc : String) :
    l.foldl (fun r s => r ++ s) acc = acc ++ String.join l := by
  induction l generalizing acc with
  | nil => simp [String.join]
  | cons x xs ih =>
    rw [List.foldl_cons, ih]
    unfold String.join
    rw [List.foldl_cons, ih ("" ++ x)]
    simp [String.append_assoc]
    rfl

theorem join_cons (a : String) (l : List String) :
    String.join (a :: l) = a ++ String.join l := by
  unfold String.join
  rw [List.foldl_cons, foldl_append_eq]
  simp
  rfl

theorem bufferText_cons (l : String) (ls : List String) :
    bufferText (l :: ls) = l ++ "\n" ++ bufferText ls := by
  simp [bufferText, join_cons]

theorem bufferText_append (a b : List String) :
    bufferText (a ++ b) = bufferText a ++ bufferText b := by
  induction a with
  | nil => simp [bufferText]
  | cons x xs ih => simp [bufferText_cons, ih, String.append_assoc]

/-- The lines printed for an element of a list stand, as one block, among
the lines printed for the list. -/
theorem infix_flatMap_of_mem {α β : Type} (f : α → List β) {x : α} {l : List α}
    (h : x ∈ l) : List.IsInfix (f x) (l.flatMap f) := by
  obtain ⟨s, t, rfl⟩ := List.append_of_mem h
  exact ⟨s.flatMap f, t.flatMap f, by simp [List.flatMap_append, List.flatMap_cons]⟩

/-- The buffer of `generateForFile` when it is formatted, section by
section. -/
theorem generateForFilePrinted_Output (env : Env) (t : ginGenerator)
    (file : FileDescriptorProto) :
    (t.generateForFilePrinted env file).Output
      = t.Output
        ++ fileHeaderLines env t.GenPkgName t.GenFiles t.filesHandled file t.GenPkgName
        ++ importsLines env file
        ++ ([""] ++ file.Service.flatMap (pathConstantsServiceLines env file))
        ++ file.Service.flatMap (fun s =>
            ginInterfaceLines env file s ++ ginRouteLines env t.GenPkgName file s) := by
  rw [generateForFilePrinted_eq]
  simp [forFileLines, pathConstantsLines, List.append_assoc]

/-- What `generateForFile` returns, by the answer of the formatter. -/
theorem generateForFile_eq (env : Env) (t : ginGenerator) (file : FileDescriptorProto) :
    t.generateForFile env file
      = (env.FormattedOutput (bufferText (t.generateForFilePrinted env file).Output)).map
          (fun content =>
            ({ Name := env.GoFileName file ".gin.go", Content := content },
             { GenPkgName := t.GenPkgName, GenFiles := t.GenFiles, Output := [],
               filesHandled := t.filesHandled + 1 })) := by
  unfold ginGenerator.generateForFile
  cases h : env.FormattedOutput (bufferText (t.generateForFilePrinted env file).Output) with
  | none => simp [h]
  | some content =>
    simp only [h, Option.map_some']
    simp [generateForFilePrinted_eq, ginGenerator.emit]

/-! ## Dynamic methods -/

/-- C1: a method whose leading-comment tag `dynamic` has the value "true"
gets no interface signature and no route.  `generateInterfaceMethod` prints
nothing for it and the method loop of `generateGinRoute` leaves its whole
state as it was (buffer, `methList`, middleware map).  So, with the method
splitting the method list of its service, `generateGinInterface` prints the
lines of the methods before, at most the blank line that follows the call
for the method, and the lines of the methods after; and `generateGinRoute`
prints the handlers and the registration lines of the methods before and
after, and none for the method. -/
theorem dynamic_method_skipped (env : Env) (t : ginGenerator) (file : FileDescriptorProto)
    (service : ServiceDescriptorProto) (method : MethodDescriptorProto)
    (pre post : List MethodDescriptorProto) (index : Nat)
    (hsplit : service.Method = pre ++ method :: post)
    (hdyn : env.GetTagValue "dynamic"
      (env.GetTagsInComment (env.MethodComments file service method).1.Leading) = "true") :
    (∀ comments, t.generateInterfaceMethod env file service method comments = t)
    ∧ (∀ servName svcName st,
        ginRouteMethod env file service servName svcName st method = st)
    ∧ (t.generateGinInterface env file service).2.Output
        = t.Output
          ++ ["// " ++ env.ServiceName service ++ "GinServer is the server API for " ++
                env.ServiceName service ++ " service."]
          ++ serviceCommentLines env file service
          ++ [String.join ["type ", env.ServiceName service, "GinServer interface \x7b"]]
          ++ pre.flatMap (interfaceOf env file service)
          ++ (if env.ShouldGenForMethod file service method = true then [""] else [])
          ++ post.flatMap (interfaceOf env file service)
          ++ ["\x7d"]
    ∧ (t.generateGinRoute env file service index).Output
        = t.Output
          ++ [String.join ["var ", serviceVarName env t.GenPkgName service, " ",
                env.ServiceName service, "GinServer"]]
          ++ pre.flatMap (handlerOf env t.GenPkgName file service)
          ++ post.flatMap (handlerOf env t.GenPkgName file service)
          ++ [String.join ["// ", "Register" ++ env.ServiceName service ++ "GinServer",
                " Register the gin route"],
              registerSignatureLine env service,
              String.join [serviceVarName env t.GenPkgName service, " = server"]]
          ++ pre.flatMap (registrationOf env file service)
          ++ post.flatMap (registrationOf env file service)
          ++ ["\t\x7d"] := by
  have hd : isDynamic env file service method = true := by
    simp [isDynamic, methodTags, hdyn]
  have hr : isRouted env file service method = false := by
    simp [isRouted, hd]
  refine ⟨?_, ?_, ?_, ?_⟩
  · intro comments
    simp [ginGenerator.generateInterfaceMethod, hdyn]
  · intro servName svcName st
    unfold ginRouteMethod
    cases hg : env.ShouldGenForMethod file service method <;> simp [hdyn]
  · rw [generateGinInterface_eq]
    cases hg : env.ShouldGenForMethod file service method <;>
      simp [ginInterfaceLines, hsplit, List.flatMap_append, List.flatMap_cons, interfaceOf,
        hg, hd]
  · rw [generateGinRoute_eq]
    simp [ginRouteLines, hsplit, List.flatMap_append, List.flatMap_cons, handlerOf,
      registrationOf, hr]

/-- Witness of C1 on the sample `Order` service: `Cancel` is dynamic, and
the route lines of the service are those of `Get` and `Create`. -/
theorem dynamic_method_skipped_witness :
    orderService.Method = [methodGet, methodCreate] ++ methodCancel :: []
    ∧ sampleEnv.GetTagValue "dynamic"
        (sampleEnv.GetTagsInComment
          (sampleEnv.MethodComments orderFile orderService methodCancel).1.Leading) = "true"
    ∧ (∀ servName svcName st,
        ginRouteMethod sampleEnv orderFile orderService servName svcName st methodCancel = st) :=
  ⟨by decide, by decide,
    (dynamic_method_skipped sampleEnv (sampleGenerator orderFile) orderFile orderService
      methodCancel [methodGet, methodCreate] [] 0 (by decide) (by decide)).2.1⟩

/-- C2, evaluated: on the sample `Order` service the method `Cancel` is
dynamic and passes `ShouldGenForMethod`, and `generatePathConstants` prints
the path constant `PathOrderCancel` for it. -/
theorem dynamic_method_gets_path_constant :
    sampleEnv.GetTagValue "dynamic"
        (sampleEnv.GetTagsInComment
          (sampleEnv.MethodComments orderFile orderService methodCancel).1.Leading) = "true"
    ∧ ((sampleGenerator orderFile).generatePathConstants sampleEnv orderFile).Output
        = ["",
           "var PathOrderGet = \"/orders/:id\"",
           "var PathOrderCreate = \"/orders\"",
           "var PathOrderCancel = \"/orders/cancel\"",
           ""] := by
  decide

/-! ## The route table -/

/-- C4: the registration lines `generateGinRoute` prints inside
`Register<Service>GinServer`, between the three opening lines of the function
and its closing brace, are the routes (verb, path, handler) of the methods
that pass `ShouldGenForMethod` and are not dynamic, in the order of
declaration; `methList` holds the same methods in the same order. -/
theorem route_registrations_in_declaration_order (env : Env) (t : ginGenerator)
    (file : FileDescriptorProto) (service : ServiceDescriptorProto) (index : Nat) :
    (t.generateGinRoute env file service index).Output
      = t.Output
        ++ [String.join ["var ", serviceVarName env t.GenPkgName service, " ",
              env.ServiceName service, "GinServer"]]
        ++ (service.Method.filter (fun m =>
              env.ShouldGenForMethod file service m &&
              !decide (env.GetTagValue "dynamic"
                (env.GetTagsInComment (env.MethodComments file service m).1.Leading)
                  = "true"))).flatMap
            (handlerLines env t.GenPkgName service)
        ++ [String.join ["// ", "Register" ++ env.ServiceName service ++ "GinServer",
              " Register the gin route"],
            String.join ["func ", "Register" ++ env.ServiceName service ++ "GinServer",
              "(e *gin.Engine, server ", env.ServiceName service, "GinServer) \x7b"],
            String.join [serviceVarName env t.GenPkgName service, " = server"]]
        ++ ((service.Method.filter (fun m =>
              env.ShouldGenForMethod file service m &&
              !decide (env.GetTagValue "dynamic"
                (env.GetTagsInComment (env.MethodComments file service m).1.Leading)
                  = "true"))).map
            (routeTriple env file service)).map registrationLine
        ++ ["\t\x7d"]
    ∧ (ginRouteLoop env t file service).methList
        = (service.Method.filter (fun m =>
              env.ShouldGenForMethod file service m &&
              !decide (env.GetTagValue "dynamic"
                (env.GetTagsInComment (env.MethodComments file service m).1.Leading)
                  = "true"))).map
            (methodInfoOf env file service) := by
  have hf : (fun m =>
        env.ShouldGenForMethod file service m &&
        !decide (env.GetTagValue "dynamic"
          (env.GetTagsInComment (env.MethodComments file service m).1.Leading) = "true"))
      = isRouted env file service := by
    funext m
    simp [isRouted, isDynamic, methodTags]
  rw [hf, generateGinRoute_eq, ginRouteLoop_eq]
  refine ⟨?_, rfl⟩
  have hh : service.Method.flatMap (handlerOf env t.GenPkgName file service)
      = (service.Method.filter (isRouted env file service)).flatMap
          (handlerLines env t.GenPkgName service) := by
    induction service.Method with
    | nil => rfl
    | cons m ms ih =>
      cases h : isRouted env file service m <;>
        simp [List.flatMap_cons, List.filter_cons, handlerOf, h, ih]
  have hreg : service.Method.flatMap (registrationOf env file service)
      = (service.Method.filter (isRouted env file service)).map
          (fun m => registrationLine (routeTriple env file service m)) :=
    flatMap_ite_singleton (isRouted env file service)
      (fun m => registrationLine (routeTriple env file service m)) service.Method
  simp [ginRouteLines, registerSignatureLine, hh, hreg, Function.comp_def]

/-! ## The interface signature -/

/-- The two forms of the signature differ whatever the names are. -/
theorem signatureOpaque_ne_signatureTyped (env : Env) (method : MethodDescriptorProto) :
    signatureOpaque env method ≠ signatureTyped env method := by
  intro h
  unfold signatureOpaque signatureTyped at h
  have h2 := congrArg String.data h
  simp only [String.data_append, List.append_assoc, List.append_cancel_left_eq] at h2
  have h3 := congrArg (fun l => l.get? 8) h2
  have e1 : (") (resp interface\x7b\x7d, err error)" : String).data.get? 8 = some 'i' := by
    decide
  have e2 : ∀ R : List Char, ((") (resp *" : String).data ++ R).get? 8 = some '*' := by
    intro R
    rfl
  simp only [e1, e2] at h3
  exact absurd h3 (by decide)

/-- C7: for a method that is not dynamic, `generateInterfaceMethod` prints
the comments of the method and then one signature line.  The line is the
opaque signature `(resp interface{}, err error)` if and only if the tag
`dynamic_resp` has exactly the value "true"; for every other value, and when
the tag is absent (the empty value), it is the typed signature with the
declared output type. -/
theorem interface_signature_by_dynamic_resp (env : Env) (t : ginGenerator)
    (file : FileDescriptorProto) (service : ServiceDescriptorProto)
    (method : MethodDescriptorProto) (comments : DefinitionComments)
    (hdyn : env.GetTagValue "dynamic"
      (env.GetTagsInComment (env.MethodComments file service method).1.Leading) ≠ "true") :
    t.generateInterfaceMethod env file service method comments
      = (if (env.MethodComments file service method).2 = true then
            t.PrintComments env (env.MethodComments file service method).1
          else t).P
          [if env.GetTagValue "dynamic_resp"
              (env.GetTagsInComment (env.MethodComments file service method).1.Leading)
                = "true"
            then signatureOpaque env method else signatureTyped env method]
    ∧ ((t.generateInterfaceMethod env file service method comments).Output.getLast?
          = some (signatureOpaque env method)
        ↔ env.GetTagValue "dynamic_resp"
            (env.GetTagsInComment (env.MethodComments file service method).1.Leading)
              = "true")
    ∧ (env.GetTagValue "dynamic_resp"
          (env.GetTagsInComment (env.MethodComments file service method).1.Leading) ≠ "true"
        → (t.generateInterfaceMethod env file service method comments).Output.getLast?
            = some (signatureTyped env method)) := by
  have hne := signatureOpaque_ne_signatureTyped env method
  have hd : isDynamic env file service method = false := by
    simp [isDynamic, methodTags, hdyn]
  have hout := generateInterfaceMethod_eq env t file service method comments
  rw [hd] at hout
  simp only [Bool.false_eq_true, if_false] at hout
  refine ⟨?_, ?_, ?_⟩
  · unfold ginGenerator.generateInterfaceMethod signatureOpaque signatureTyped
    by_cases hr : env.GetTagValue "dynamic_resp"
        (env.GetTagsInComment (env.MethodComments file service method).1.Leading) = "true"
    · simp [hdyn, hr]
    · simp [hdyn, hr]
  · rw [hout]
    by_cases hr : env.GetTagValue "dynamic_resp"
        (env.GetTagsInComment (env.MethodComments file service method).1.Leading) = "true"
    · simp [signatureLine, methodTags, hr, ← List.append_assoc]
    · simp [signatureLine, methodTags, hr, ← List.append_assoc]
      exact fun h => hne h.symm
  · intro hr
    rw [hout]
    simp [signatureLine, methodTags, hr, ← List.append_assoc]

/-- Witness of C7: the sample method `Report` carries `dynamic_resp:"True"`,
which is not the value "true", and gets the typed signature. -/
theorem interface_signature_by_dynamic_resp_witness :
    sampleEnv.GetTagValue "dynamic"
        (sampleEnv.GetTagsInComment
          (sampleEnv.MethodComments exportFile exportService methodReport).1.Leading) ≠ "true"
    ∧ sampleEnv.GetTagValue "dynamic_resp"
        (sampleEnv.GetTagsInComment
          (sampleEnv.MethodComments exportFile exportService methodReport).1.Leading) = "True"
    ∧ ((sampleGenerator exportFile).generateInterfaceMethod sampleEnv exportFile exportService
          methodReport { Leading := "" }).Output.getLast?
        = some (signatureTyped sampleEnv methodReport)
    ∧ signatureTyped sampleEnv methodReport
        = "\tReport(ctx context.Context, req *ReportReq) (resp *Sheet, err error)" :=
  ⟨by decide, by decide,
    (interface_signature_by_dynamic_resp sampleEnv (sampleGenerator exportFile) exportFile
      exportService methodReport { Leading := "" } (by decide)).2.2 (by decide),
    by decide⟩

/-! ## Header-aware binding -/

theorem hasHeaderTagFields_iff (env : Env) (fields : List FieldDescriptorProto) :
    hasHeaderTagFields env fields = true ↔
      ∃ f ∈ fields, ∃ st, env.GetMoreTags f = some st ∧
        (env.StructTagGet st "request" ≠ "" ∨ env.StructTagGet st "header" ≠ "") := by
  induction fields with
  | nil => simp [hasHeaderTagFields]
  | cons f rest ih =>
    unfold hasHeaderTagFields
    cases hm : env.GetMoreTags f with
    | none => simp [hm, ih]
    | some st =>
      by_cases hr : env.StructTagGet st "request" = ""
      · by_cases hh : env.StructTagGet st "header" = ""
        · simp [hm, hr, hh, ih]
        · simp [hm, hr, hh]
      · simp [hm, hr]

/-- C9: `hasHeaderTag` returns true exactly when some field of the message
has extra tags in which the key `request` or the key `header` has a
non-empty value, and false for a message without fields; and the handler
printed for a method that passes `ShouldGenForMethod` and is not dynamic
binds the request, on its third line, with the extra mode `binding.Request`
if and only if `hasHeaderTag` holds of the input message of the method. -/
theorem binding_request_iff_header_tag (env : Env) (file : FileDescriptorProto)
    (service : ServiceDescriptorProto) (servName svcName : String) (st : routeLoopState)
    (method : MethodDescriptorProto)
    (hgen : env.ShouldGenForMethod file service method = true)
    (hdyn : env.GetTagValue "dynamic"
      (env.GetTagsInComment (env.MethodComments file service method).1.Leading) ≠ "true") :
    (∀ md : MessageDefinition, hasHeaderTag env md = true ↔
        ∃ f ∈ md.Descriptor.Field, ∃ tg, env.GetMoreTags f = some tg ∧
          (env.StructTagGet tg "request" ≠ "" ∨ env.StructTagGet tg "header" ≠ ""))
    ∧ (∀ md : MessageDefinition, md.Descriptor.Field = [] → hasHeaderTag env md = false)
    ∧ (ginRouteMethod env file service servName svcName st method).t.Output[
          st.t.Output.length + 2]?
        = some (bindWithLine
            (if hasHeaderTag env (env.MessageDefinition method.InputType) = true then
              ", binding.Request" else ""))
    ∧ ((ginRouteMethod env file service servName svcName st method).t.Output[
          st.t.Output.length + 2]? = some (bindWithLine ", binding.Request")
        ↔ hasHeaderTag env (env.MessageDefinition method.InputType) = true) := by
  have hiff : ∀ md : MessageDefinition, hasHeaderTag env md = true ↔
      ∃ f ∈ md.Descriptor.Field, ∃ tg, env.GetMoreTags f = some tg ∧
        (env.StructTagGet tg "request" ≠ "" ∨ env.StructTagGet tg "header" ≠ "") := by
    intro md
    unfold hasHeaderTag
    cases hf : md.Descriptor.Field with
    | nil => simp
    | cons f rest => simpa using hasHeaderTagFields_iff env (f :: rest)
  have hline : (ginRouteMethod env file service servName svcName st method).t.Output[
        st.t.Output.length + 2]?
      = some (bindWithLine
          (if hasHeaderTag env (env.MessageDefinition method.InputType) = true then
            ", binding.Request" else "")) := by
    unfold ginRouteMethod
    simp only [hgen, hdyn, if_false, Bool.true_eq_false, P_eq_emit, emit_emit, emit_Output,
      join_singleton]
    rw [List.getElem?_append_right (by omega)]
    simp [bindWithLine]
  refine ⟨hiff, ?_, hline, ?_⟩
  · intro md hf
    simp [hasHeaderTag, hf]
  · rw [hline]
    have hne : bindWithLine "" ≠ bindWithLine ", binding.Request" := by decide
    by_cases hh : hasHeaderTag env (env.MessageDefinition method.InputType) = true
    · simp [hh]
    · simp [hh, hne]

/-- Witness of C9: the input message of the sample method `Create` has the
field `token` bound to a header, and its handler binds with
`binding.Request`. -/
theorem binding_request_iff_header_tag_witness :
    sampleEnv.ShouldGenForMethod orderFile orderService methodCreate = true
    ∧ sampleEnv.GetTagValue "dynamic"
        (sampleEnv.GetTagsInComment
          (sampleEnv.MethodComments orderFile orderService methodCreate).1.Leading) ≠ "true"
    ∧ hasHeaderTag sampleEnv (sampleEnv.MessageDefinition methodCreate.InputType) = true
    ∧ (ginRouteMethod sampleEnv orderFile orderService "Order" "OrderSvc"
          { t := sampleGenerator orderFile, methList := [], allMidwareMap := [] }
          methodCreate).t.Output[(sampleGenerator orderFile).Output.length + 2]?
        = some (bindWithLine
            (if hasHeaderTag sampleEnv (sampleEnv.MessageDefinition methodCreate.InputType)
                = true then ", binding.Request" else "")) :=
  ⟨by decide, by decide, by decide,
    (binding_request_iff_header_tag sampleEnv orderFile orderService "Order" "OrderSvc"
      { t := sampleGenerator orderFile, methList := [], allMidwareMap := [] } methodCreate
      (by decide) (by decide)).2.2.1⟩

/-! ## One constant, one signature, one registration -/

/-- A line printed once for one element of a list and never for the others
stands once among the lines printed for the list. -/
theorem count_flatMap_eq_zero {α : Type} (g : α → List String) (ℓ : String) (l : List α)
    (h : ∀ y ∈ l, (g y).count ℓ = 0) : (l.flatMap g).count ℓ = 0 := by
  induction l with
  | nil => rfl
  | cons y ys ih =>
    rw [List.flatMap_cons, List.count_append, h y (List.mem_cons_self _ _),
      ih (fun z hz => h z (List.mem_cons_of_mem _ hz))]

theorem count_flatMap_eq_one {α : Type} [DecidableEq α] (g : α → List String) (ℓ : String)
    (x : α) (l : List α) (hx : l.count x = 1) (hgx : (g x).count ℓ = 1)
    (ho : ∀ y ∈ l, y ≠ x → (g y).count ℓ = 0) : (l.flatMap g).count ℓ = 1 := by
  induction l with
  | nil => simp at hx
  | cons y ys ih =>
    rw [List.flatMap_cons, List.count_append]
    by_cases hy : y = x
    · subst hy
      rw [List.count_cons_self] at hx
      have hnot : y ∉ ys := List.count_eq_zero.mp (by omega)
      rw [hgx, count_flatMap_eq_zero g ℓ ys (fun z hz =>
        ho z (List.mem_cons_of_mem _ hz) (fun e => hnot (e ▸ hz)))]
    · rw [List.count_cons_of_ne (fun e => hy e.symm)] at hx
      rw [ho y (List.mem_cons_self _ _) hy,
        ih hx (fun z hz => ho z (List.mem_cons_of_mem _ hz))]

/-- Splitting a text at the newlines gives back the lines it was made of. -/
theorem splitAux_append (sep : Char) (l : List Char) (rest acc : List Char)
    (h : sep ∉ l) :
    splitAux sep (l ++ sep :: rest) acc = (acc.reverse ++ l) :: splitAux sep rest [] := by
  induction l generalizing acc with
  | nil => simp [splitAux]
  | cons c cs ih =>
    have hc : c ≠ sep := fun e => h (e ▸ List.mem_cons_self _ _)
    have hcs : sep ∉ cs := fun e => h (List.mem_cons_of_mem _ e)
    simp [splitAux, hc, ih _ hcs]

theorem contentLines_bufferText (lines : List String)
    (h : ∀ l ∈ lines, '\n' ∉ l.data) :
    contentLines (bufferText lines) = lines ++ [""] := by
  unfold contentLines stringsSplit
  induction lines with
  | nil => simp [bufferText, splitAux]
  | cons l ls ih =>
    rw [bufferText_cons]
    simp only [String.data_append, List.append_assoc]
    rw [List.singleton_append,
      splitAux_append '\n' l.data _ [] (h l (List.mem_cons_self _ _))]
    simp only [List.reverse_nil, List.nil_append, List.map_cons, List.cons_append]
    rw [ih (fun z hz => h z (List.mem_cons_of_mem _ hz))]

/-- Lines that correspond one to one: the forms of a line are as many as
the line itself when no other line has a form in common with it. -/
theorem countP_of_forall₂ (related : String → String → Bool) (ℓ : String)
    (as bs : List String)
    (hrel : List.Forall₂ (fun a b => related a b = true) as bs)
    (hone : ∀ a ∈ as, ∀ b ∈ bs, related a b = true → related ℓ b = true → a = ℓ) :
    bs.countP (fun b => related ℓ b) = as.count ℓ := by
  induction hrel with
  | nil => rfl
  | @cons a b as bs hab _ ih =>
    have ih' := ih (fun a' ha' b' hb' =>
      hone a' (List.mem_cons_of_mem _ ha') b' (List.mem_cons_of_mem _ hb'))
    by_cases ha : a = ℓ
    · subst ha
      simp [List.countP_cons, hab, ih']
    · have hb : related ℓ b = false := by
        cases hr : related ℓ b
        · rfl
        · exact absurd (hone a (List.mem_cons_self _ _) b (List.mem_cons_self _ _) hab hr) ha
      simp [List.countP_cons, hb, ih', List.count_cons, ha]

theorem firstChar_pathConstantLine (env : Env) (file : FileDescriptorProto)
    (service : ServiceDescriptorProto) (method : MethodDescriptorProto) :
    firstChar (pathConstantLine env file service method) = some 'v' := by
  simp [firstChar, pathConstantLine, join_cons, String.data_append]
theorem lastChar_pathConstantLine (env : Env) (file : FileDescriptorProto)
    (service : ServiceDescriptorProto) (method : MethodDescriptorProto) :
    lastChar (pathConstantLine env file service method) = some '"' := by
  simp [lastChar, pathConstantLine, join_cons, String.data_append]
theorem firstChar_registrationLine (r : String × String × String) :
    firstChar (registrationLine r) = some 'e' := by
  simp [firstChar, registrationLine, join_cons, String.data_append]
theorem lastChar_registrationLine (r : String × String × String) :
    lastChar (registrationLine r) = some ')' := by
  simp [lastChar, registrationLine, join_cons, String.data_append]
theorem firstChar_signatureLine (env : Env) (file : FileDescriptorProto)
    (service : ServiceDescriptorProto) (method : MethodDescriptorProto) :
    firstChar (signatureLine env file service method) = some '\t' := by
  unfold signatureLine
  split <;> simp [firstChar, signatureOpaque, signatureTyped, String.data_append]
theorem lastChar_signatureLine (env : Env) (file : FileDescriptorProto)
    (service : ServiceDescriptorProto) (method : MethodDescriptorProto) :
    lastChar (signatureLine env file service method) = some ')' := by
  unfold signatureLine
  split <;> simp [lastChar, signatureOpaque, signatureTyped, String.data_append]
theorem lastChar2_signatureLine (env : Env) (file : FileDescriptorProto)
    (service : ServiceDescriptorProto) (method : MethodDescriptorProto) :
    lastChar2 (signatureLine env file service method) = some 'r' := by
  unfold signatureLine
  split <;> simp [lastChar2, signatureOpaque, signatureTyped, String.data_append]

theorem ne_pathConstantLine {l : String} (h : notConstantLike l) (env : Env)
    (file : FileDescriptorProto) (service : ServiceDescriptorProto)
    (method : MethodDescriptorProto) : l ≠ pathConstantLine env file service method := by
  intro e
  subst e
  rcases h with h | h
  · exact h (firstChar_pathConstantLine env file service method)
  · exact h (lastChar_pathConstantLine env file service method)

theorem ne_registrationLine {l : String} (h : notRegistrationLike l)
    (r : String × String × String) : l ≠ registrationLine r := by
  intro e
  subst e
  rcases h with h | h
  · exact h (firstChar_registrationLine r)
  · exact h (lastChar_registrationLine r)

theorem ne_signatureLine {l : String} (h : notSignatureLike l) (env : Env)
    (file : FileDescriptorProto) (service : ServiceDescriptorProto)
    (method : MethodDescriptorProto) : l ≠ signatureLine env file service method := by
  intro e
  subst e
  rcases h with h | h | h
  · exact h (firstChar_signatureLine env file service method)
  · exact h (lastChar_signatureLine env file service method)
  · exact h (lastChar2_signatureLine env file service method)

/-- The fixed lines of the header, those outside the doc block. -/
theorem fileHeaderLines_shape (env : Env) (genPkgName : String)
    (genFiles : List FileDescriptorProto) (n : Nat) (file : FileDescriptorProto)
    (pkgName : String) :
    ∀ l ∈ fileHeaderLines env genPkgName genFiles n file pkgName,
      (n = 0 ∧ l ∈ fileDocLines env genPkgName genFiles file)
      ∨ (notConstantLike l ∧ notRegistrationLike l ∧ notSignatureLike l) := by
  intro l hl
  unfold fileHeaderLines at hl
  simp only [List.mem_append, List.mem_cons, List.mem_singleton, List.not_mem_nil,
    or_false] at hl
  rcases hl with ((hl | hl | hl) | hl) | hl | hl
  · right; subst hl
    simp [notConstantLike, notRegistrationLike, notSignatureLike, firstChar, join_cons,
      String.data_append]
  · right; subst hl
    simp [notConstantLike, notRegistrationLike, notSignatureLike, firstChar, join_cons,
      String.data_append]
  · right; subst hl
    simp [notConstantLike, notRegistrationLike, notSignatureLike, firstChar]
  · by_cases h0 : n = 0
    · left
      simp only [h0, if_true] at hl
      exact ⟨h0, hl⟩
    · simp [h0] at hl
  · right; subst hl
    simp [notConstantLike, notRegistrationLike, notSignatureLike, firstChar, join_cons,
      String.data_append]
  · right; subst hl
    simp [notConstantLike, notRegistrationLike, notSignatureLike, firstChar]

theorem importsLines_shape (env : Env) (file : FileDescriptorProto) :
    ∀ l ∈ importsLines env file,
      notConstantLike l ∧ notRegistrationLike l ∧ notSignatureLike l := by
  intro l hl
  unfold importsLines importsDepLines at hl
  simp only [List.mem_append, List.mem_cons, List.mem_singleton, List.not_mem_nil,
    or_false, List.mem_flatMap] at hl
  rcases hl with (((hl | hl | hl | hl | hl | hl) | ⟨dep, _, s, _, m, _, hl⟩) | hl) |
    hl | hl | hl | hl | hl
  all_goals first
    | (subst hl
       simp [notConstantLike, notRegistrationLike, notSignatureLike, firstChar, lastChar,
         join_cons, String.data_append])
    | (split at hl
       · simp only [List.mem_singleton] at hl
         subst hl
         simp [notConstantLike, notRegistrationLike, notSignatureLike, firstChar, lastChar,
           join_cons, String.data_append]
       · simp at hl)

theorem pathConstantsServiceLines_shape (env : Env) (file : FileDescriptorProto)
    (service : ServiceDescriptorProto) :
    ∀ l ∈ pathConstantsServiceLines env file service,
      notRegistrationLike l ∧ notSignatureLike l := by
  intro l hl
  unfold pathConstantsServiceLines pathConstantOf at hl
  simp only [List.mem_append, List.mem_singleton, List.mem_flatMap] at hl
  rcases hl with ⟨m, _, hl⟩ | hl
  · split at hl
    · simp only [List.mem_singleton] at hl
      subst hl
      simp [notRegistrationLike, notSignatureLike, firstChar_pathConstantLine]
    · simp at hl
  · subst hl
    simp [notRegistrationLike, notSignatureLike, firstChar]

/-- The lines of an interface other than the signatures, when comments are
printed as comment lines. -/
theorem ginInterfaceLines_shape (env : Env) (file : FileDescriptorProto)
    (service : ServiceDescriptorProto)
    (hcomm : ∀ comments, ∀ l ∈ env.PrintComments comments, firstChar l = some '/') :
    ∀ l ∈ ginInterfaceLines env file service,
      notConstantLike l ∧ notRegistrationLike l := by
  intro l hl
  unfold ginInterfaceLines serviceCommentLines interfaceOf methodCommentLines at hl
  simp only [List.mem_append, List.mem_singleton, List.mem_flatMap] at hl
  rcases hl with (((hl | hl) | hl) | ⟨m, _, hl⟩) | hl
  · subst hl
    simp [notConstantLike, notRegistrationLike, firstChar, String.data_append]
  · split at hl
    · simp [notConstantLike, notRegistrationLike, hcomm _ l hl]
    · simp at hl
  · subst hl
    simp [notConstantLike, notRegistrationLike, firstChar, join_cons, String.data_append]
  · split at hl
    · simp only [List.mem_append, List.mem_singleton] at hl
      rcases hl with hl | hl
      · split at hl
        · simp at hl
        · simp only [List.mem_append, List.mem_singleton] at hl
          rcases hl with hl | hl
          · split at hl
            · simp [notConstantLike, notRegistrationLike, hcomm _ l hl]
            · simp at hl
          · subst hl
            simp [notConstantLike, notRegistrationLike, firstChar_signatureLine]
      · subst hl
        simp [notConstantLike, notRegistrationLike, firstChar]
    · simp at hl
  · subst hl
    simp [notConstantLike, notRegistrationLike, firstChar]

/-- The lines of a handler cannot be taken for a path constant or a
registration line, and only its line `p := new(...)` for a signature. -/
theorem handlerLines_shape (env : Env) (genPkgName : String)
    (service : ServiceDescriptorProto) (method : MethodDescriptorProto) :
    ∀ l ∈ handlerLines env genPkgName service method,
      notConstantLike l ∧ notRegistrationLike l
      ∧ (notSignatureLike l
          ∨ l = String.join ["\tp := new(", env.GoTypeName method.InputType, ")"]) := by
  intro l hl
  unfold handlerLines at hl
  simp only [List.mem_cons, List.mem_singleton, List.not_mem_nil, or_false] at hl
  rcases hl with hl | hl | hl | hl | hl | hl | hl | hl | hl | hl | hl | hl | hl | hl
  all_goals subst hl
  case inr.inl => simp [notConstantLike, notRegistrationLike, firstChar, join_cons,
    String.data_append]
  all_goals
    simp [notConstantLike, notRegistrationLike, notSignatureLike, firstChar, lastChar,
      lastChar2, join_cons, String.data_append, bindWithLine]

/-- The line `p := new(...)` of a handler is not the signature of a method
whose generated name has no space. -/
theorem new_line_ne_signatureLine (env : Env) (file : FileDescriptorProto)
    (service : ServiceDescriptorProto) (method : MethodDescriptorProto) (x : String)
    (hspace : ' ' ∉ (env.MethodName method).data) :
    String.join ["\tp := new(", x, ")"] ≠ signatureLine env file service method := by
  intro h
  have h' := congrArg String.data h
  unfold signatureLine signatureOpaque signatureTyped at h'
  cases hm : (env.MethodName method).data with
  | nil => split at h' <;> simp [join_cons, String.data_append, hm] at h'
  | cons a rest =>
    cases rest with
    | nil => split at h' <;> simp [join_cons, String.data_append, hm] at h'
    | cons b rest' =>
      have hb : b ≠ ' ' := by
        intro e
        apply hspace
        rw [hm, e]
        simp
      split at h' <;> simp [join_cons, String.data_append, hm] at h' <;>
        exact hb h'.2.1.symm

theorem ginRouteLines_notConstantLike (env : Env) (genPkgName : String)
    (file : FileDescriptorProto) (service : ServiceDescriptorProto) :
    ∀ l ∈ ginRouteLines env genPkgName file service, notConstantLike l := by
  intro l hl
  unfold ginRouteLines handlerOf registrationOf registerSignatureLine at hl
  simp only [List.mem_append, List.mem_cons, List.mem_singleton, List.not_mem_nil,
    or_false, List.mem_flatMap] at hl
  rcases hl with ((((hl | ⟨m, _, hl⟩) | hl | hl | hl) | ⟨m, _, hl⟩) | hl)
  · subst hl
    simp [notConstantLike, lastChar, join_cons, String.data_append]
  · split at hl
    · exact (handlerLines_shape env genPkgName service m l hl).1
    · simp at hl
  · subst hl
    simp [notConstantLike, firstChar, join_cons, String.data_append]
  · subst hl
    simp [notConstantLike, firstChar, join_cons, String.data_append]
  · subst hl
    simp [notConstantLike, lastChar, join_cons, String.data_append]
  · split at hl
    · simp only [List.mem_singleton] at hl
      subst hl
      simp [notConstantLike, firstChar_registrationLine]
    · simp at hl
  · subst hl
    simp [notConstantLike, firstChar]

theorem ginRouteLines_ne_signatureLine (env : Env) (genPkgName : String)
    (file : FileDescriptorProto) (service s : ServiceDescriptorProto)
    (method : MethodDescriptorProto)
    (hspace : ' ' ∉ (env.MethodName method).data) :
    ∀ l ∈ ginRouteLines env genPkgName file s,
      l ≠ signatureLine env file service method := by
  intro l hl
  unfold ginRouteLines handlerOf registrationOf registerSignatureLine at hl
  simp only [List.mem_append, List.mem_cons, List.mem_singleton, List.not_mem_nil,
    or_false, List.mem_flatMap] at hl
  rcases hl with ((((hl | ⟨m, _, hl⟩) | hl | hl | hl) | ⟨m, _, hl⟩) | hl)
  · subst hl
    exact ne_signatureLine
      (by simp [notSignatureLike, firstChar, join_cons, String.data_append]) _ _ _ _
  · split at hl
    · rcases (handlerLines_shape env genPkgName s m l hl).2.2 with h | h
      · exact ne_signatureLine h _ _ _ _
      · subst h
        exact new_line_ne_signatureLine env file service method _ hspace
    · simp at hl
  · subst hl
    exact ne_signatureLine
      (by simp [notSignatureLike, firstChar, join_cons, String.data_append]) _ _ _ _
  · subst hl
    exact ne_signatureLine
      (by simp [notSignatureLike, firstChar, join_cons, String.data_append]) _ _ _ _
  · subst hl
    exact ne_signatureLine
      (by simp [notSignatureLike, lastChar, join_cons, String.data_append]) _ _ _ _
  · split at hl
    · simp only [List.mem_singleton] at hl
      subst hl
      exact ne_signatureLine
        (by simp [notSignatureLike, firstChar_registrationLine]) _ _ _ _
    · simp at hl
  · subst hl
    exact ne_signatureLine (by simp [notSignatureLike, lastChar]) _ _ _ _

theorem count_ginRouteLines_registrationLine (env : Env) (genPkgName : String)
    (file : FileDescriptorProto) (s : ServiceDescriptorProto)
    (r : String × String × String) :
    (ginRouteLines env genPkgName file s).count (registrationLine r)
      = (s.Method.flatMap (registrationOf env file s)).count (registrationLine r) := by
  have h0 : ∀ (L : List String), (∀ l ∈ L, notRegistrationLike l) →
      L.count (registrationLine r) = 0 := by
    intro L hL
    exact List.count_eq_zero.mpr (fun hmem => ne_registrationLine (hL _ hmem) r rfl)
  unfold ginRouteLines
  simp only [List.count_append]
  rw [h0 [_] (by simp [notRegistrationLike, firstChar, join_cons, String.data_append]),
    h0 (s.Method.flatMap (handlerOf env genPkgName file s)) (by
      intro l hl
      simp only [List.mem_flatMap, handlerOf] at hl
      obtain ⟨m, _, hl⟩ := hl
      split at hl
      · exact (handlerLines_shape env genPkgName s m l hl).2.1
      · simp at hl),
    h0 [_, _, _] (by
      simp [notRegistrationLike, firstChar, lastChar, join_cons, String.data_append,
        registerSignatureLine]),
    h0 ["\t\x7d"] (by simp [notRegistrationLike, firstChar])]
  simp

theorem count_ginInterfaceLines_signatureLine (env : Env) (file : FileDescriptorProto)
    (service s : ServiceDescriptorProto) (method : MethodDescriptorProto)
    (hcomm : ∀ comments, ∀ l ∈ env.PrintComments comments, firstChar l = some '/') :
    (ginInterfaceLines env file s).count (signatureLine env file service method)
      = ((s.Method.filter (isRouted env file s)).map (signatureLine env file s)).count
          (signatureLine env file service method) := by
  have hc : ∀ (L : List String), (∀ l ∈ L, firstChar l ≠ some '\t') →
      L.count (signatureLine env file service method) = 0 := by
    intro L hL
    exact List.count_eq_zero.mpr
      (fun hmem => hL _ hmem (firstChar_signatureLine env file service method))
  have hcm : ∀ comments,
      (env.PrintComments comments).count (signatureLine env file service method) = 0 := by
    intro comments
    exact hc _ (fun l hl => by simp [hcomm comments l hl])
  unfold ginInterfaceLines
  simp only [List.count_append]
  rw [hc [_] (by simp [firstChar, String.data_append]),
    hc [String.join ["type ", env.ServiceName s, "GinServer interface \x7b"]]
      (by simp [firstChar, join_cons, String.data_append]),
    hc ["\x7d"] (by simp [firstChar])]
  have hsc : (serviceCommentLines env file s).count (signatureLine env file service method)
      = 0 := by
    unfold serviceCommentLines
    split
    · exact hcm _
    · rfl
  rw [hsc]
  simp only [Nat.zero_add, Nat.add_zero]
  induction s.Method with
  | nil => rfl
  | cons m ms ih =>
    rw [List.flatMap_cons, List.count_append, ih]
    have hmc : (methodCommentLines env file s m).count
        (signatureLine env file service method) = 0 := by
      unfold methodCommentLines
      split
      · exact hcm _
      · rfl
    have hblank : ¬ ("" : String) = signatureLine env file service method := by
      intro e
      have := firstChar_signatureLine env file service method
      rw [← e] at this
      simp [firstChar] at this
    unfold interfaceOf isRouted
    cases hg : env.ShouldGenForMethod file s m
    · simp [List.filter_cons, isRouted, hg]
    · cases hd : isDynamic env file s m
      · simp [List.filter_cons, isRouted, hg, hd, List.count_append, hmc, List.count_cons,
          hblank]
        omega
      · simp [List.filter_cons, isRouted, hg, hd, List.count_cons, hblank]

/-- Among the lines printed for the methods of the services of a file, a
line that no other method shares stands once. -/
theorem count_method_lines_eq_one (services : List ServiceDescriptorProto)
    (p : ServiceDescriptorProto → MethodDescriptorProto → Bool)
    (line : ServiceDescriptorProto → MethodDescriptorProto → String)
    (service : ServiceDescriptorProto) (method : MethodDescriptorProto)
    (hs : services.count service = 1) (hm : service.Method.count method = 1)
    (hp : p service method = true)
    (huniq : ∀ s ∈ services, ∀ m ∈ s.Method, p s m = true →
      line s m = line service method → s = service ∧ m = method) :
    (services.flatMap (fun s => (s.Method.filter (p s)).map (line s))).count
      (line service method) = 1 := by
  have hmem : service ∈ services := List.count_pos_iff.mp (by omega)
  refine count_flatMap_eq_one _ _ service services hs ?_ ?_
  · rw [← flatMap_ite_singleton]
    refine count_flatMap_eq_one _ _ method service.Method hm ?_ ?_
    · simp [hp]
    · intro m hmm hne
      by_cases hpm : p service m = true
      · simp only [hpm, if_true]
        refine List.count_eq_zero.mpr ?_
        simp only [List.mem_singleton]
        intro e
        exact hne (huniq service hmem m hmm hpm e.symm).2
      · simp [hpm]
  · intro s hsm hne
    refine List.count_eq_zero.mpr ?_
    simp only [List.mem_map, List.mem_filter]
    rintro ⟨m, ⟨hmm, hpm⟩, e⟩
    exact hne (huniq s hsm m hmm hpm e).1

theorem count_eq_zero_of_ne (L : List String) (ℓ : String) (h : ∀ l ∈ L, l ≠ ℓ) :
    L.count ℓ = 0 :=
  List.count_eq_zero.mpr (fun hmem => h ℓ hmem rfl)

/-- The path constant line of a method stands in the buffer as often as
among the path constants printed for the methods of the file. -/
theorem count_buffer_pathConstantLine (env : Env) (t : ginGenerator)
    (file : FileDescriptorProto) (service : ServiceDescriptorProto)
    (method : MethodDescriptorProto)
    (hbuf : t.Output = [])
    (hcomm : ∀ comments, ∀ l ∈ env.PrintComments comments, firstChar l = some '/')
    (hdoc : t.filesHandled = 0 →
      ∀ l ∈ fileDocLines env t.GenPkgName t.GenFiles file,
        l ≠ pathConstantLine env file service method) :
    (t.generateForFilePrinted env file).Output.count
        (pathConstantLine env file service method)
      = (file.Service.flatMap (fun s =>
          (s.Method.filter (env.ShouldGenForMethod file s)).map
            (pathConstantLine env file s))).count
          (pathConstantLine env file service method) := by
  rw [generateForFilePrinted_Output, hbuf]
  simp only [List.nil_append, List.count_append]
  rw [count_eq_zero_of_ne (fileHeaderLines _ _ _ _ _ _) _ (by
      intro l hl
      rcases fileHeaderLines_shape _ _ _ _ _ _ l hl with ⟨h0, hd⟩ | h
      · exact hdoc h0 l hd
      · exact ne_pathConstantLine h.1 _ _ _ _),
    count_eq_zero_of_ne (importsLines env file) _ (fun l hl =>
      ne_pathConstantLine (importsLines_shape env file l hl).1 _ _ _ _),
    count_eq_zero_of_ne [""] _ (fun l hl =>
      ne_pathConstantLine (by
        simp only [List.mem_singleton] at hl
        subst hl
        simp [notConstantLike, firstChar]) _ _ _ _),
    count_flatMap_eq_zero (fun s =>
        ginInterfaceLines env file s ++ ginRouteLines env t.GenPkgName file s) _
      file.Service (fun s _ => count_eq_zero_of_ne _ _ (by
        intro l hl
        rcases List.mem_append.mp hl with h | h
        · exact ne_pathConstantLine (ginInterfaceLines_shape env file s hcomm l h).1 _ _ _ _
        · exact ne_pathConstantLine
            (ginRouteLines_notConstantLike env t.GenPkgName file s l h) _ _ _ _))]
  simp only [Nat.zero_add, Nat.add_zero]
  induction file.Service with
  | nil => rfl
  | cons s ss ih =>
    rw [List.flatMap_cons, List.flatMap_cons, List.count_append, List.count_append, ih]
    congr 1
    unfold pathConstantsServiceLines
    rw [List.count_append, count_eq_zero_of_ne [""] _ (fun l hl =>
      ne_pathConstantLine (by
        simp only [List.mem_singleton] at hl
        subst hl
        simp [notConstantLike, firstChar]) _ _ _ _)]
    have : s.Method.flatMap (pathConstantOf env file s)
        = (s.Method.filter (env.ShouldGenForMethod file s)).map
            (pathConstantLine env file s) :=
      flatMap_ite_singleton (env.ShouldGenForMethod file s) (pathConstantLine env file s)
        s.Method
    rw [this]
    rfl

/-- The signature line of a method stands in the buffer as often as among
the signatures printed for the routed methods of the file. -/
theorem count_buffer_signatureLine (env : Env) (t : ginGenerator)
    (file : FileDescriptorProto) (service : ServiceDescriptorProto)
    (method : MethodDescriptorProto)
    (hbuf : t.Output = [])
    (hcomm : ∀ comments, ∀ l ∈ env.PrintComments comments, firstChar l = some '/')
    (hspace : ' ' ∉ (env.MethodName method).data)
    (hdoc : t.filesHandled = 0 →
      ∀ l ∈ fileDocLines env t.GenPkgName t.GenFiles file,
        l ≠ signatureLine env file service method) :
    (t.generateForFilePrinted env file).Output.count
        (signatureLine env file service method)
      = (file.Service.flatMap (fun s =>
          (s.Method.filter (isRouted env file s)).map (signatureLine env file s))).count
          (signatureLine env file service method) := by
  rw [generateForFilePrinted_Output, hbuf]
  simp only [List.nil_append, List.count_append]
  rw [count_eq_zero_of_ne (fileHeaderLines _ _ _ _ _ _) _ (by
      intro l hl
      rcases fileHeaderLines_shape _ _ _ _ _ _ l hl with ⟨h0, hd⟩ | h
      · exact hdoc h0 l hd
      · exact ne_signatureLine h.2.2 _ _ _ _),
    count_eq_zero_of_ne (importsLines env file) _ (fun l hl =>
      ne_signatureLine (importsLines_shape env file l hl).2.2 _ _ _ _),
    count_eq_zero_of_ne [""] _ (fun l hl =>
      ne_signatureLine (by
        simp only [List.mem_singleton] at hl
        subst hl
        simp [notSignatureLike, firstChar]) _ _ _ _),
    count_flatMap_eq_zero (pathConstantsServiceLines env file) _ file.Service
      (fun s _ => count_eq_zero_of_ne _ _ (fun l hl =>
        ne_signatureLine (pathConstantsServiceLines_shape env file s l hl).2 _ _ _ _))]
  simp only [Nat.zero_add, Nat.add_zero]
  induction file.Service with
  | nil => rfl
  | cons s ss ih =>
    rw [List.flatMap_cons, List.flatMap_cons, List.count_append, List.count_append, ih,
      List.count_append, count_ginInterfaceLines_signatureLine env file service s method hcomm,
      count_eq_zero_of_ne (ginRouteLines env t.GenPkgName file s) _
        (ginRouteLines_ne_signatureLine env t.GenPkgName file service s method hspace)]
    rfl

/-- The registration line of a method stands in the buffer as often as among
the registration lines printed for the routed methods of the file. -/
theorem count_buffer_registrationLine (env : Env) (t : ginGenerator)
    (file : FileDescriptorProto) (r : String × String × String)
    (hbuf : t.Output = [])
    (hcomm : ∀ comments, ∀ l ∈ env.PrintComments comments, firstChar l = some '/')
    (hdoc : t.filesHandled = 0 →
      ∀ l ∈ fileDocLines env t.GenPkgName t.GenFiles file, l ≠ registrationLine r) :
    (t.generateForFilePrinted env file).Output.count (registrationLine r)
      = (file.Service.flatMap (fun s =>
          (s.Method.filter (isRouted env file s)).map
            (fun m => registrationLine (routeTriple env file s m)))).count
          (registrationLine r) := by
  rw [generateForFilePrinted_Output, hbuf]
  simp only [List.nil_append, List.count_append]
  rw [count_eq_zero_of_ne (fileHeaderLines _ _ _ _ _ _) _ (by
      intro l hl
      rcases fileHeaderLines_shape _ _ _ _ _ _ l hl with ⟨h0, hd⟩ | h
      · exact hdoc h0 l hd
      · exact ne_registrationLine h.2.1 _),
    count_eq_zero_of_ne (importsLines env file) _ (fun l hl =>
      ne_registrationLine (importsLines_shape env file l hl).2.1 _),
    count_eq_zero_of_ne [""] _ (fun l hl =>
      ne_registrationLine (by
        simp only [List.mem_singleton] at hl
        subst hl
        simp [notRegistrationLike, firstChar]) _),
    count_flatMap_eq_zero (pathConstantsServiceLines env file) _ file.Service
      (fun s _ => count_eq_zero_of_ne _ _ (fun l hl =>
        ne_registrationLine (pathConstantsServiceLines_shape env file s l hl).1 _))]
  simp only [Nat.zero_add, Nat.add_zero]
  induction file.Service with
  | nil => rfl
  | cons s ss ih =>
    rw [List.flatMap_cons, List.flatMap_cons, List.count_append, List.count_append, ih,
      List.count_append,
      count_eq_zero_of_ne (ginInterfaceLines env file s) _ (fun l hl =>
        ne_registrationLine (ginInterfaceLines_shape env file s hcomm l hl).2 _),
      count_ginRouteLines_registrationLine]
    have : s.Method.flatMap (registrationOf env file s)
        = (s.Method.filter (isRouted env file s)).map
            (fun m => registrationLine (routeTriple env file s m)) :=
      flatMap_ite_singleton (isRouted env file s)
        (fun m => registrationLine (routeTriple env file s m)) s.Method
    rw [this]
    simp

set_option maxRecDepth 100000 in
/-- C3, refuted: in the sample `itemService` the methods `get_item` and
`GetItem` have distinct names, pass `ShouldGenForMethod` and are not
dynamic, and the content returned for the file holds the path constant
line, the signature and the registration line of `GetItem` twice each; and in
the sample file with the services `Order` and `Stock` the content holds the
signature of the method `Get` of `Order` twice. -/
theorem same_line_printed_twice :
    ((itemService.Method.map (fun m => m.Name)).Nodup
      ∧ isRouted itemEnv itemFile itemService methodGetItemSnake = true
      ∧ isRouted itemEnv itemFile itemService methodGetItem = true
      ∧ ∃ r, (sampleGenerator itemFile).generateForFile itemEnv itemFile = some r
        ∧ pathConstantLine itemEnv itemFile itemService methodGetItem
            = "var PathItemGetItem = \"/item\""
        ∧ (contentLines r.1.Content).count "var PathItemGetItem = \"/item\"" = 2
        ∧ signatureLine itemEnv itemFile itemService methodGetItem
            = "\tGetItem(ctx context.Context, req *ItemReq) (resp *Item, err error)"
        ∧ (contentLines r.1.Content).count
            "\tGetItem(ctx context.Context, req *ItemReq) (resp *Item, err error)" = 2
        ∧ registrationLine (routeTriple itemEnv itemFile itemService methodGetItem)
            = "e.GET(\"/item\",itemGetItem )"
        ∧ (contentLines r.1.Content).count "e.GET(\"/item\",itemGetItem )" = 2)
    ∧ ((orderService.Method.map (fun m => m.Name)).Nodup
      ∧ isRouted sampleEnv twoServiceFile orderService methodGet = true
      ∧ ∃ r, (sampleGenerator twoServiceFile).generateForFile sampleEnv twoServiceFile
            = some r
        ∧ signatureLine sampleEnv twoServiceFile orderService methodGet
            = "\tGet(ctx context.Context, req *GetReq) (resp *Order, err error)"
        ∧ (contentLines r.1.Content).count
            "\tGet(ctx context.Context, req *GetReq) (resp *Order, err error)" = 2) := by
  refine ⟨⟨by decide, by decide, by decide, _, rfl, by decide, by decide, by decide,
      by decide, by decide, by decide⟩,
    ⟨by decide, by decide, _, rfl, by decide, by decide⟩⟩

/-- C3, amended: take a generator with an empty buffer, a file whose
services have pairwise distinct names, a service of it with pairwise
distinct method names and a method of the service that passes
`ShouldGenForMethod` and is not dynamic.  Let the generated name of the
method hold no space, let no other method of the file get the same path
constant line, the same signature or the same registration line, let
`PrintComments` print comment lines, and let no line of the package doc
block equal one of the three lines.  Then the buffer `generateForFile`
formats holds each of the three lines exactly once.  And when
`FormattedOutput` accepts the buffer and answers with a text whose non-blank
lines are, one for one and in order, forms of the non-blank lines of the
buffer, a form of one of the three lines being a form of no other line of
the buffer, then `generateForFile` returns that text as the content and the
content holds exactly one form of the path constant line, of the signature
and of the registration line of the method. -/
theorem one_constant_signature_registration_per_method (env : Env) (t : ginGenerator)
    (file : FileDescriptorProto) (service : ServiceDescriptorProto)
    (method : MethodDescriptorProto) (formOf : String → String → Bool) (out : List String)
    (hbuf : t.Output = [])
    (hserv : service ∈ file.Service)
    (hsnames : (file.Service.map (fun s => s.Name)).Nodup)
    (hmeth : method ∈ service.Method)
    (hnames : (service.Method.map (fun m => m.Name)).Nodup)
    (hgen : env.ShouldGenForMethod file service method = true)
    (hdyn : env.GetTagValue "dynamic"
      (env.GetTagsInComment (env.MethodComments file service method).1.Leading) ≠ "true")
    (hspace : ' ' ∉ (env.MethodName method).data)
    (hconst : ∀ s ∈ file.Service, ∀ m ∈ s.Method,
      env.ShouldGenForMethod file s m = true →
      pathConstantLine env file s m = pathConstantLine env file service method →
      s = service ∧ m = method)
    (hsig : ∀ s ∈ file.Service, ∀ m ∈ s.Method, isRouted env file s m = true →
      signatureLine env file s m = signatureLine env file service method →
      s = service ∧ m = method)
    (hreg : ∀ s ∈ file.Service, ∀ m ∈ s.Method, isRouted env file s m = true →
      registrationLine (routeTriple env file s m)
        = registrationLine (routeTriple env file service method) →
      s = service ∧ m = method)
    (hcomm : ∀ comments, ∀ l ∈ env.PrintComments comments, firstChar l = some '/')
    (hdoc : t.filesHandled = 0 →
      ∀ l ∈ fileDocLines env t.GenPkgName t.GenFiles file,
        l ≠ pathConstantLine env file service method
        ∧ l ≠ signatureLine env file service method
        ∧ l ≠ registrationLine (routeTriple env file service method))
    (hfmt : env.FormattedOutput (bufferText (t.generateForFilePrinted env file).Output)
      = some (bufferText out))
    (hout : ∀ l ∈ out, '\n' ∉ l.data)
    (hrel : List.Forall₂ (fun a b => formOf a b = true)
      ((t.generateForFilePrinted env file).Output.filter (fun l => l ≠ ""))
      (out.filter (fun l => l ≠ "")))
    (hone : ∀ ℓ ∈ [pathConstantLine env file service method,
        signatureLine env file service method,
        registrationLine (routeTriple env file service method)],
      ∀ a ∈ (t.generateForFilePrinted env file).Output, ∀ b ∈ out,
        formOf a b = true → formOf ℓ b = true → a = ℓ) :
    (t.generateForFilePrinted env file).Output.count
        (pathConstantLine env file service method) = 1
    ∧ (t.generateForFilePrinted env file).Output.count
        (signatureLine env file service method) = 1
    ∧ (t.generateForFilePrinted env file).Output.count
        (registrationLine (routeTriple env file service method)) = 1
    ∧ ∃ r, t.generateForFile env file = some r
      ∧ r.1.Content = bufferText out
      ∧ ((contentLines r.1.Content).filter (fun l => l ≠ "")).countP
          (fun b => formOf (pathConstantLine env file service method) b) = 1
      ∧ ((contentLines r.1.Content).filter (fun l => l ≠ "")).countP
          (fun b => formOf (signatureLine env file service method) b) = 1
      ∧ ((contentLines r.1.Content).filter (fun l => l ≠ "")).countP
          (fun b => formOf (registrationLine (routeTriple env file service method)) b)
          = 1 := by
  have hrouted : isRouted env file service method = true := by
    simp [isRouted, isDynamic, methodTags, hgen, hdyn]
  have hcs : file.Service.count service = 1 :=
    List.count_eq_one_of_mem (List.Nodup.of_map _ hsnames) hserv
  have hcm : service.Method.count method = 1 :=
    List.count_eq_one_of_mem (List.Nodup.of_map _ hnames) hmeth
  have h1 : (t.generateForFilePrinted env file).Output.count
      (pathConstantLine env file service method) = 1 := by
    rw [count_buffer_pathConstantLine env t file service method hbuf hcomm
      (fun h0 l hl => (hdoc h0 l hl).1)]
    exact count_method_lines_eq_one file.Service (env.ShouldGenForMethod file)
      (pathConstantLine env file) service method hcs hcm hgen hconst
  have h2 : (t.generateForFilePrinted env file).Output.count
      (signatureLine env file service method) = 1 := by
    rw [count_buffer_signatureLine env t file service method hbuf hcomm hspace
      (fun h0 l hl => (hdoc h0 l hl).2.1)]
    exact count_method_lines_eq_one file.Service (isRouted env file)
      (signatureLine env file) service method hcs hcm hrouted hsig
  have h3 : (t.generateForFilePrinted env file).Output.count
      (registrationLine (routeTriple env file service method)) = 1 := by
    rw [count_buffer_registrationLine env t file _ hbuf hcomm
      (fun h0 l hl => (hdoc h0 l hl).2.2)]
    exact count_method_lines_eq_one file.Service (isRouted env file)
      (fun s m => registrationLine (routeTriple env file s m)) service method hcs hcm
      hrouted hreg
  have hcontent : ∀ ℓ ∈ [pathConstantLine env file service method,
      signatureLine env file service method,
      registrationLine (routeTriple env file service method)],
      (t.generateForFilePrinted env file).Output.count ℓ = 1 →
      ((contentLines (bufferText out)).filter (fun l => l ≠ "")).countP
        (fun b => formOf ℓ b) = 1 := by
    intro ℓ hℓ hcount
    have hne : ℓ ≠ "" := by
      intro e
      rw [e] at hcount
      simp only [List.mem_cons, List.mem_singleton, List.not_mem_nil, or_false] at hℓ
      rcases hℓ with h | h | h
      · have := firstChar_pathConstantLine env file service method
        rw [← h, e] at this
        simp [firstChar] at this
      · have := firstChar_signatureLine env file service method
        rw [← h, e] at this
        simp [firstChar] at this
      · have := firstChar_registrationLine (routeTriple env file service method)
        rw [← h, e] at this
        simp [firstChar] at this
    rw [contentLines_bufferText out hout, List.filter_append]
    simp only [List.filter_cons, List.filter_nil, ne_eq, not_true_eq_false,
      decide_False, Bool.false_eq_true, if_false, List.append_nil]
    rw [countP_of_forall₂ formOf ℓ _ _ hrel (fun a ha b hb =>
      hone ℓ hℓ a (List.mem_of_mem_filter ha) b (List.mem_of_mem_filter hb))]
    rw [List.count_filter (by simpa using hne)]
    exact hcount
  refine ⟨h1, h2, h3, _, (generateForFile_eq env t file).trans (by rw [hfmt]; rfl), rfl,
    hcontent _ (by simp) h1, hcontent _ (by simp) h2, hcontent _ (by simp) h3⟩

theorem sampleEnv_PrintComments (comments : DefinitionComments) :
    ∀ l ∈ sampleEnv.PrintComments comments, firstChar l = some '/' := by
  intro l hl
  have h : sampleEnv.PrintComments comments
      = if comments.Leading = "" then [] else ["// " ++ comments.Leading] := rfl
  rw [h] at hl
  split at hl
  · simp at hl
  · simp only [List.mem_singleton] at hl
    subst hl
    simp [firstChar, String.data_append]

theorem forall₂_sameLine (l : List String) :
    List.Forall₂ (fun a b => sameLine a b = true) l l := by
  induction l with
  | nil => exact List.Forall₂.nil
  | cons a as ih => exact List.Forall₂.cons (by simp [sameLine]) ih

set_option maxRecDepth 100000 in
/-- Witness of C3, amended: the method `Create` of the sample `Order`
service, with the sample formatter, which keeps every line. -/
theorem one_constant_signature_registration_per_method_witness :
    orderService ∈ orderFile.Service ∧ methodCreate ∈ orderService.Method
    ∧ (orderService.Method.map (fun m => m.Name)).Nodup
    ∧ sampleEnv.ShouldGenForMethod orderFile orderService methodCreate = true
    ∧ sampleEnv.GetTagValue "dynamic"
        (sampleEnv.GetTagsInComment
          (sampleEnv.MethodComments orderFile orderService methodCreate).1.Leading) ≠ "true"
    ∧ ((sampleGenerator orderFile).generateForFilePrinted sampleEnv orderFile).Output.count
        (pathConstantLine sampleEnv orderFile orderService methodCreate) = 1
    ∧ ((sampleGenerator orderFile).generateForFilePrinted sampleEnv orderFile).Output.count
        (signatureLine sampleEnv orderFile orderService methodCreate) = 1
    ∧ ((sampleGenerator orderFile).generateForFilePrinted sampleEnv orderFile).Output.count
        (registrationLine (routeTriple sampleEnv orderFile orderService methodCreate)) = 1
    ∧ ∃ r, (sampleGenerator orderFile).generateForFile sampleEnv orderFile = some r
      ∧ r.1.Content
          = bufferText ((sampleGenerator orderFile).generateForFilePrinted sampleEnv
              orderFile).Output
      ∧ ((contentLines r.1.Content).filter (fun l => l ≠ "")).countP
          (fun b => sameLine (pathConstantLine sampleEnv orderFile orderService methodCreate)
            b) = 1
      ∧ ((contentLines r.1.Content).filter (fun l => l ≠ "")).countP
          (fun b => sameLine (signatureLine sampleEnv orderFile orderService methodCreate)
            b) = 1
      ∧ ((contentLines r.1.Content).filter (fun l => l ≠ "")).countP
          (fun b => sameLine
            (registrationLine (routeTriple sampleEnv orderFile orderService methodCreate))
            b) = 1 :=
  ⟨by decide, by decide, by decide, by decide, by decide,
    one_constant_signature_registration_per_method sampleEnv (sampleGenerator orderFile)
      orderFile orderService methodCreate sameLine
      ((sampleGenerator orderFile).generateForFilePrinted sampleEnv orderFile).Output
      rfl (by decide) (by decide) (by decide) (by decide) (by decide) (by decide)
      (by decide) (by decide) (by decide) (by decide) sampleEnv_PrintComments
      (by decide) rfl (by decide) (forall₂_sameLine _)
      (by
        intro ℓ _ a _ b _ hab hℓb
        simp only [sameLine, decide_eq_true_eq] at hab hℓb
        rw [hab, hℓb])⟩

/-! ## Routes with the same verb and path -/

/-- C5, refuted: the sample service `clashService` has the methods `Get`
and `Fetch`, both routed, both `GET /orders/:id`.  `generateForFile` returns
a file for it, and the content ends with a registration function that
registers both routes. -/
theorem duplicate_route_content_returned :
    isRouted sampleEnv clashFile clashService methodGet = true
    ∧ isRouted sampleEnv clashFile clashService methodFetch = true
    ∧ (sampleEnv.GetHttpInfoCached clashFile clashService methodGet).HttpMethod
        = (sampleEnv.GetHttpInfoCached clashFile clashService methodFetch).HttpMethod
    ∧ (sampleEnv.GetHttpInfoCached clashFile clashService methodGet).NewPath
        = (sampleEnv.GetHttpInfoCached clashFile clashService methodFetch).NewPath
    ∧ ∃ r, (sampleGenerator clashFile).generateForFile sampleEnv clashFile = some r
        ∧ r.1.Name = "order.gin.go"
        ∧ (contentLines r.1.Content).drop ((contentLines r.1.Content).length - 6)
            = ["func RegisterOrderGinServer(e *gin.Engine, server OrderGinServer) \x7b",
               "OrderSvc = server",
               "e.GET(\"/orders/:id\",orderGet )",
               "e.GET(\"/orders/:id\",orderFetch )",
               "\t\x7d",
               ""] := by
  refine ⟨by decide, by decide, by decide, by decide, _, rfl, by decide, by decide⟩

/-- C5, amended: `generateForFile` makes no conflict check.  For every file
with a service in which two routed methods (passing `ShouldGenForMethod`,
not dynamic) have the same HTTP verb and path, the buffer it hands to
`FormattedOutput` holds the registration line of the first method and, after
it, the registration line of the second, with that same verb and path; and
it returns the file record whose content is the answer of the formatter
whenever `FormattedOutput` accepts that buffer, and nothing only when
`FormattedOutput` rejects it. -/
theorem duplicate_routes_both_registered (env : Env) (t : ginGenerator)
    (file : FileDescriptorProto) (service : ServiceDescriptorProto)
    (pre mid post : List MethodDescriptorProto) (m1 m2 : MethodDescriptorProto)
    (hs : service ∈ file.Service)
    (hsplit : service.Method = pre ++ m1 :: (mid ++ m2 :: post))
    (hgen1 : env.ShouldGenForMethod file service m1 = true)
    (hdyn1 : env.GetTagValue "dynamic"
      (env.GetTagsInComment (env.MethodComments file service m1).1.Leading) ≠ "true")
    (hgen2 : env.ShouldGenForMethod file service m2 = true)
    (hdyn2 : env.GetTagValue "dynamic"
      (env.GetTagsInComment (env.MethodComments file service m2).1.Leading) ≠ "true")
    (hverb : (env.GetHttpInfoCached file service m1).HttpMethod
      = (env.GetHttpInfoCached file service m2).HttpMethod)
    (hpath : (env.GetHttpInfoCached file service m1).NewPath
      = (env.GetHttpInfoCached file service m2).NewPath) :
    List.Sublist
        [registrationLine ((env.GetHttpInfoCached file service m1).HttpMethod,
            (env.GetHttpInfoCached file service m1).NewPath, routeFuncName env service m1),
         registrationLine ((env.GetHttpInfoCached file service m1).HttpMethod,
            (env.GetHttpInfoCached file service m1).NewPath, routeFuncName env service m2)]
        (t.generateForFilePrinted env file).Output
    ∧ (∀ content,
        env.FormattedOutput (bufferText (t.generateForFilePrinted env file).Output)
            = some content →
        t.generateForFile env file
          = some ({ Name := env.GoFileName file ".gin.go", Content := content },
                  { GenPkgName := t.GenPkgName, GenFiles := t.GenFiles, Output := [],
                    filesHandled := t.filesHandled + 1 }))
    ∧ (t.generateForFile env file = none
        ↔ env.FormattedOutput (bufferText (t.generateForFilePrinted env file).Output)
            = none) := by
  refine ⟨?_, ?_, ?_⟩
  · have hr1 : isRouted env file service m1 = true := by
      simp [isRouted, isDynamic, methodTags, hgen1, hdyn1]
    have hr2 : isRouted env file service m2 = true := by
      simp [isRouted, isDynamic, methodTags, hgen2, hdyn2]
    have hreg : List.Sublist
        [registrationLine (routeTriple env file service m1),
         registrationLine (routeTriple env file service m2)]
        (service.Method.flatMap (registrationOf env file service)) := by
      rw [hsplit]
      simp only [List.flatMap_append, List.flatMap_cons, registrationOf, hr1, hr2, if_true,
        List.singleton_append]
      refine List.sublist_append_of_sublist_right ?_
      refine List.Sublist.cons₂ _ ?_
      refine List.sublist_append_of_sublist_right ?_
      exact List.Sublist.cons₂ _ (List.nil_sublist _)
    have hroute : List.Sublist (service.Method.flatMap (registrationOf env file service))
        (ginRouteLines env t.GenPkgName file service) := by
      unfold ginRouteLines
      exact List.sublist_append_of_sublist_left (List.sublist_append_right _ _)
    have hserv : List.Sublist (ginRouteLines env t.GenPkgName file service)
        (file.Service.flatMap (fun s =>
          ginInterfaceLines env file s ++ ginRouteLines env t.GenPkgName file s)) :=
      (List.sublist_append_right _ _).trans
        (infix_flatMap_of_mem
          (fun s => ginInterfaceLines env file s ++ ginRouteLines env t.GenPkgName file s)
          hs).sublist
    have hall := (hreg.trans hroute).trans hserv
    rw [generateForFilePrinted_Output]
    simp only [routeTriple, ← hverb, ← hpath] at hall
    exact List.sublist_append_of_sublist_right hall
  · intro content hfmt
    rw [generateForFile_eq, hfmt]
    rfl
  · rw [generateForFile_eq]
    simp

/-- Witness of C5, amended: `Get` and `Fetch` of the sample `clashService`;
the sample formatter accepts the buffer and the file record is returned. -/
theorem duplicate_routes_both_registered_witness :
    clashService ∈ clashFile.Service
    ∧ clashService.Method = [] ++ methodGet :: ([] ++ methodFetch :: [])
    ∧ (sampleGenerator clashFile).generateForFile sampleEnv clashFile
        = some ({ Name := sampleEnv.GoFileName clashFile ".gin.go",
                  Content := bufferText
                    ((sampleGenerator clashFile).generateForFilePrinted sampleEnv
                      clashFile).Output },
                { GenPkgName := (sampleGenerator clashFile).GenPkgName,
                  GenFiles := (sampleGenerator clashFile).GenFiles, Output := [],
                  filesHandled := (sampleGenerator clashFile).filesHandled + 1 }) :=
  ⟨by decide, by decide,
    (duplicate_routes_both_registered sampleEnv (sampleGenerator clashFile) clashFile
      clashService [] [] [] methodGet methodFetch (by decide) (by decide) (by decide)
      (by decide) (by decide) (by decide) (by decide) (by decide)).2.1 _ rfl⟩

/-! ## Middleware -/

/-- C6, evaluated: in the sample `midwareService` the methods declare the
middleware `b,a` and `a`.  `generateGinRoute` collects them and sorts the
parameter list `a gin.HandlerFunc`, `b gin.HandlerFunc`, and prints a
registration function whose signature has the parameters `e` and `server`
only. -/
theorem register_signature_without_middleware :
    (ginRouteLoop sampleEnv (sampleGenerator midwareFile) midwareFile
        midwareService).methList.map (fun mi => mi.midwares) = [["b", "a"], ["a"]]
    ∧ ginRouteMidList (ginRouteLoop sampleEnv (sampleGenerator midwareFile) midwareFile
        midwareService).allMidwareMap = ["a gin.HandlerFunc", "b gin.HandlerFunc"]
    ∧ ((sampleGenerator midwareFile).generateGinRoute sampleEnv midwareFile midwareService
          0).Output.drop
        (((sampleGenerator midwareFile).generateGinRoute sampleEnv midwareFile midwareService
          0).Output.length - 6)
        = ["// RegisterOrderGinServer Register the gin route",
           "func RegisterOrderGinServer(e *gin.Engine, server OrderGinServer) \x7b",
           "OrderSvc = server",
           "e.GET(\"/order/Search\",orderSearch )",
           "e.GET(\"/order/Update\",orderUpdate )",
           "\t\x7d"] := by
  decide

/-! ## Imports -/

/-- C10, evaluated: for the sample `Order` file the block of imports that
`generateImports` prints holds `context`, `gin` and `binding` and no
`net/http`, and the handler `generateGinRoute` prints for `Get` refers to
`http.StatusBadRequest`. -/
theorem handler_uses_http_without_import :
    ((sampleGenerator orderFile).generateImports sampleEnv orderFile).Output
      = ["import (",
         "\t\"context\"",
         "",
         "\t\"github.com/gin-gonic/gin\"",
         "\t\"github.com/gin-gonic/gin/binding\"",
         ")",
         "",
         "// to suppressed 'imported but not used warning'",
         "var _ *gin.Context",
         "var _ context.Context",
         "var _ binding.StructValidator"]
    ∧ ((sampleGenerator orderFile).generateGinRoute sampleEnv orderFile orderService
          0).Output.take 5
        = ["var OrderSvc OrderGinServer",
           "func orderGet (c *gin.Context) \x7b",
           "\tp := new(GetReq)",
           "\tif err := c.BindWith(p, binding.Default(c.Request.Method, c.Request.Header.Get(\"Content-Type\"))); err != nil \x7b",
           "\t\tc.JSON(http.StatusBadRequest, gin.H\x7b\"error\": err.Error()\x7d)"] := by
  decide


/-! ## Determinism -/

set_option maxRecDepth 100000 in
/-- C8, refuted: on the sample generator the first run of `generateForFile`
on the `Order` file and the second run on the same generator and the same
file return different contents, the first with the package doc block from
its fourth line on; and two runs on a new generator for the file with the
method `Link` that visit the dependency map in the two possible orders
return contents with the two dependency lines in the two orders. -/
theorem second_run_content_differs :
    (∃ r₁ r₂, (sampleGenerator orderFile).generateForFile sampleEnv orderFile = some r₁
      ∧ r₁.2.generateForFile sampleEnv orderFile = some r₂
      ∧ r₁.1.Content ≠ r₂.1.Content
      ∧ (contentLines r₁.1.Content).take 5
          = ["// Code generated by protoc-gen-gin v0.1, DO NOT EDIT.",
             "// source: order.proto",
             "",
             "/*",
             "Package api is a generated blademaster stub package."]
      ∧ (contentLines r₂.1.Content).take 5
          = ["// Code generated by protoc-gen-gin v0.1, DO NOT EDIT.",
             "// source: order.proto",
             "",
             "package api",
             ""])
    ∧ (∃ r₁ r₂,
        (sampleGenerator linkFile).generateForFile (sampleEnv.visiting depsCommonFirst) linkFile
          = some r₁
      ∧ (sampleGenerator linkFile).generateForFile (sampleEnv.visiting depsCoreFirst) linkFile
          = some r₂
      ∧ (depsCoreFirst linkFile).Perm (depsCommonFirst linkFile)
      ∧ r₁.1.Content ≠ r₂.1.Content
      ∧ ((contentLines r₁.1.Content).drop 18).take 2
          = ["import common \"common\"", "import core \"core\""]
      ∧ ((contentLines r₂.1.Content).drop 18).take 2
          = ["import core \"core\"", "import common \"common\""]) := by
  refine ⟨⟨_, _, rfl, rfl, by decide, by decide, by decide⟩,
    ⟨_, _, rfl, rfl, List.Perm.swap _ _ _, by decide, by decide, by decide⟩⟩

theorem hasHeaderTagFields_visiting (env : Env)
    (deps : FileDescriptorProto → List (String × String)) (fields : List FieldDescriptorProto) :
    hasHeaderTagFields (env.visiting deps) fields = hasHeaderTagFields env fields := by
  induction fields with
  | nil => rfl
  | cons f rest ih =>
    unfold hasHeaderTagFields
    rw [ih]
    rfl

theorem hasHeaderTag_visiting (env : Env)
    (deps : FileDescriptorProto → List (String × String)) (md : MessageDefinition) :
    hasHeaderTag (env.visiting deps) md = hasHeaderTag env md := by
  unfold hasHeaderTag
  cases md.Descriptor.Field with
  | nil => rfl
  | cons f rest => exact hasHeaderTagFields_visiting env deps (f :: rest)

/-- The route lines do not read the dependency map. -/
theorem ginRouteLines_visiting (env : Env)
    (deps : FileDescriptorProto → List (String × String)) (genPkgName : String)
    (file : FileDescriptorProto) (service : ServiceDescriptorProto) :
    ginRouteLines (env.visiting deps) genPkgName file service
      = ginRouteLines env genPkgName file service := by
  have hh : handlerOf (env.visiting deps) genPkgName file service
      = handlerOf env genPkgName file service := by
    funext method
    unfold handlerOf handlerLines
    rw [hasHeaderTag_visiting]
    rfl
  unfold ginRouteLines
  rw [hh]
  rfl

/-- The closed form reads the counter of handled files only through the
test whether it is zero, and the environment's visiting orders only at the
file. -/
theorem forFileLines_visiting (env : Env)
    (deps₁ deps₂ : FileDescriptorProto → List (String × String)) (genPkgName : String)
    (genFiles : List FileDescriptorProto) (n m : Nat) (file : FileDescriptorProto)
    (h : n = 0 ↔ m = 0) (hd : deps₁ file = deps₂ file) :
    forFileLines (env.visiting deps₁) genPkgName genFiles n file
      = forFileLines (env.visiting deps₂) genPkgName genFiles m file := by
  have hi : importsLines (env.visiting deps₁) file = importsLines (env.visiting deps₂) file := by
    show importsLines { env with DeduceDeps := deps₁ } file
      = importsLines { env with DeduceDeps := deps₂ } file
    unfold importsLines
    simp only [hd]
    rfl
  have hh : fileHeaderLines (env.visiting deps₁) genPkgName genFiles n file genPkgName
      = fileHeaderLines (env.visiting deps₂) genPkgName genFiles m file genPkgName := by
    unfold fileHeaderLines
    by_cases hn : n = 0
    · simp only [hn, h.mp hn]
      rfl
    · have hm : ¬ m = 0 := fun hm => hn (h.mpr hm)
      simp only [hn, hm]
      rfl
  unfold forFileLines
  rw [hi, hh]
  simp only [ginRouteLines_visiting]
  rfl

/-- The package doc block starts the text it is printed into. -/
theorem bufferText_fileDocLines_ne (env : Env) (genPkgName : String)
    (genFiles : List FileDescriptorProto) (file : FileDescriptorProto) :
    (bufferText (fileDocLines env genPkgName genFiles file)).data ≠ [] := by
  unfold fileDocLines
  simp only [List.append_assoc, List.cons_append, bufferText_cons, String.data_append]
  intro h
  have := congrArg List.length h
  simp at this

/-- C8, amended: for two runs of `generateForFile` that visit the
dependency map of the file in the same order, the file record returned
depends on the generator only through `GenPkgName`, `GenFiles`, the buffer at
entry and whether `filesHandled` is zero.  Every run that returns leaves the
buffer empty, adds one to `filesHandled` and keeps the rest, so the buffer of
an earlier run never reaches a later one.  The buffer of a run with
`filesHandled` zero is the buffer of a later run with the package doc block,
which starts with the line `/*`, put after its first three lines, and the
texts handed to the formatter differ. -/
theorem content_determined_up_to_first_file (env : Env)
    (deps₁ deps₂ : FileDescriptorProto → List (String × String))
    (t₁ t₂ : ginGenerator) (file : FileDescriptorProto)
    (hp : t₁.GenPkgName = t₂.GenPkgName) (hf : t₁.GenFiles = t₂.GenFiles)
    (ho : t₁.Output = t₂.Output)
    (hd : deps₁ file = deps₂ file) :
    ((t₁.filesHandled = 0 ↔ t₂.filesHandled = 0) →
      (t₁.generateForFile (env.visiting deps₁) file).map Prod.fst
        = (t₂.generateForFile (env.visiting deps₂) file).map Prod.fst)
    ∧ (∀ r, t₁.generateForFile (env.visiting deps₁) file = some r →
        r.2 = { GenPkgName := t₁.GenPkgName, GenFiles := t₁.GenFiles, Output := [],
                filesHandled := t₁.filesHandled + 1 })
    ∧ (t₁.filesHandled = 0 → t₂.filesHandled ≠ 0 →
        ∃ first rest, first.length = 3
          ∧ (t₂.generateForFilePrinted (env.visiting deps₂) file).Output
              = t₂.Output ++ first ++ rest
          ∧ (t₁.generateForFilePrinted (env.visiting deps₁) file).Output
              = t₁.Output ++ first
                ++ fileDocLines env t₁.GenPkgName t₁.GenFiles file ++ rest
          ∧ (fileDocLines env t₁.GenPkgName t₁.GenFiles file).head? = some "/*"
          ∧ bufferText (t₁.generateForFilePrinted (env.visiting deps₁) file).Output
              ≠ bufferText (t₂.generateForFilePrinted (env.visiting deps₂) file).Output) := by
  refine ⟨?_, ?_, ?_⟩
  · intro hh
    rw [generateForFile_eq, generateForFile_eq, generateForFilePrinted_eq,
      generateForFilePrinted_eq]
    simp only [emit_Output, Option.map_map]
    rw [hp, hf, ho, forFileLines_visiting env deps₁ deps₂ t₂.GenPkgName t₂.GenFiles
      t₁.filesHandled t₂.filesHandled file hh hd]
    rfl
  · intro r hr
    rw [generateForFile_eq] at hr
    cases hfmt : (env.visiting deps₁).FormattedOutput
        (bufferText (t₁.generateForFilePrinted (env.visiting deps₁) file).Output) with
    | none => simp [hfmt] at hr
    | some content =>
      simp only [hfmt, Option.map_some', Option.some.injEq] at hr
      rw [← hr]
  · intro h1 h2
    have hi : importsLines (env.visiting deps₁) file = importsLines (env.visiting deps₂) file := by
      show importsLines { env with DeduceDeps := deps₁ } file
        = importsLines { env with DeduceDeps := deps₂ } file
      unfold importsLines
      simp only [hd]
      rfl
    have hb : (t₂.generateForFilePrinted (env.visiting deps₂) file).Output
        = t₂.Output
          ++ [String.join ["// Code generated by protoc-gen-gin ", env.Version,
                ", DO NOT EDIT."],
              String.join ["// source: ", file.Name], ""]
          ++ ([String.join ["package ", t₂.GenPkgName], ""]
              ++ importsLines (env.visiting deps₂) file
              ++ pathConstantsLines env file
              ++ file.Service.flatMap (fun service =>
                  ginInterfaceLines env file service
                    ++ ginRouteLines env t₂.GenPkgName file service)) := by
      rw [generateForFilePrinted_eq]
      simp only [emit_Output, forFileLines, fileHeaderLines, h2, if_false, List.append_nil,
        List.append_assoc, ginRouteLines_visiting]
      rfl
    have ha : (t₁.generateForFilePrinted (env.visiting deps₁) file).Output
        = t₁.Output
          ++ [String.join ["// Code generated by protoc-gen-gin ", env.Version,
                ", DO NOT EDIT."],
              String.join ["// source: ", file.Name], ""]
          ++ fileDocLines env t₁.GenPkgName t₁.GenFiles file
          ++ ([String.join ["package ", t₂.GenPkgName], ""]
              ++ importsLines (env.visiting deps₂) file
              ++ pathConstantsLines env file
              ++ file.Service.flatMap (fun service =>
                  ginInterfaceLines env file service
                    ++ ginRouteLines env t₂.GenPkgName file service)) := by
      rw [generateForFilePrinted_eq]
      simp only [emit_Output, forFileLines, fileHeaderLines, h1, if_true, hi, hp,
        List.append_assoc, ginRouteLines_visiting]
      rfl
    refine ⟨_, _, ?_, hb, ha, ?_, ?_⟩
    · rfl
    · simp [fileDocLines]
    · rw [ha, hb, ho]
      simp only [List.append_assoc, bufferText_append]
      intro h
      have h' := congrArg String.data h
      simp only [String.data_append, List.append_cancel_left_eq] at h'
      exact bufferText_fileDocLines_ne _ _ _ _ (List.append_left_eq_self.mp h')

/-- Witness of C8, amended: a generator that has handled one file and one
that has handled two return the same record for the file with the method
`Link`, the dependency map visited `common` first in both runs. -/
theorem content_determined_up_to_first_file_witness :
    (laterGenerator linkFile 0).GenPkgName = (laterGenerator linkFile 1).GenPkgName
    ∧ (laterGenerator linkFile 0).Output = (laterGenerator linkFile 1).Output
    ∧ depsCommonFirst linkFile = depsCommonFirst linkFile
    ∧ ((laterGenerator linkFile 0).filesHandled = 0
        ↔ (laterGenerator linkFile 1).filesHandled = 0)
    ∧ ((laterGenerator linkFile 0).generateForFile (sampleEnv.visiting depsCommonFirst)
          linkFile).map Prod.fst
        = ((laterGenerator linkFile 1).generateForFile (sampleEnv.visiting depsCommonFirst)
          linkFile).map Prod.fst :=
  ⟨rfl, rfl, rfl, by decide,
    (content_determined_up_to_first_file sampleEnv depsCommonFirst depsCommonFirst
      (laterGenerator linkFile 0) (laterGenerator linkFile 1) linkFile rfl rfl rfl rfl).1
      (by decide)⟩

end GinGen
